import Mathlib

/-!
Verification of the ingestion-dedup-rating-valuation pipeline of the `tm`
repository against its natural-language specification.

The Python sources are shallowly embedded:
* pure numeric code over machine floats is modelled over `ℝ` (where a real
  exponential `10 ** x` occurs) or over `ℚ` (where only field arithmetic
  occurs);
* SQLite tables are modelled as lists of row structures, in insertion order;
* `INSERT OR IGNORE` / `INSERT OR REPLACE` are modelled with SQLite's
  documented conflict semantics on the relevant UNIQUE key (`NULL` key
  components never conflict);
* `ORDER BY` is modelled as a stable sort (`List.insertionSort`) on the
  ordering key;
* Python `try/except`-style fallible parsing is modelled with `Option`.

Each embedded definition keeps the name of the Python function it models.
-/

namespace TM

/-! ### Python-level parsing helpers

Models of `int(...)` and `float(...)` conversions used by the sources,
restricted to the decimal forms that actually occur in the data
(optionally signed decimal literals, surrounding whitespace stripped).
-/

/-- Does `needle` start `hay`? (char-list level, structural recursion so
that concrete witnesses reduce in the kernel). -/
def startsWithL : List Char → List Char → Bool
  | [], _ => true
  | _ :: _, [] => false
  | a :: as, b :: bs => a == b && startsWithL as bs

/-- Model of Python `sep in s` restricted to the chars of both strings. -/
def isInfixL (needle : List Char) : List Char → Bool
  | [] => needle.isEmpty
  | x :: xs => startsWithL needle (x :: xs) || isInfixL needle xs

/-- Model of Python `needle in haystack` for strings. -/
def strContains (haystack needle : String) : Bool :=
  isInfixL needle.data haystack.data

/-- Model of Python `s.split(sep)` for a one-char separator:
`"".split("-") = [""]`, `"3-1".split("-") = ["3","1"]`,
`"3--1".split("-") = ["3","","1"]`. -/
def splitOnChar (c : Char) : List Char → List (List Char)
  | [] => [[]]
  | x :: xs =>
    match splitOnChar c xs with
    | [] => [[x]]
    | y :: ys => if x == c then [] :: y :: ys else (x :: y) :: ys

/-- Model of Python `s.strip()` (char-list level). -/
def pyStripL (l : List Char) : List Char :=
  ((l.dropWhile Char.isWhitespace).reverse.dropWhile Char.isWhitespace).reverse

/-- Model of Python `s.strip()`. -/
def pyStrip (s : String) : String := ⟨pyStripL s.data⟩

/-- Model of Python `s.lower()`. -/
def pyLower (s : String) : String := ⟨s.data.map Char.toLower⟩

/-- Numeric value of a digit string. -/
def digitsVal (l : List Char) : Nat :=
  l.foldl (fun n c => n * 10 + (c.toNat - 48)) 0

/-- Digits-only char list to `Nat`; `none` if empty or not all digits. -/
def digitsCore (l : List Char) : Option Nat :=
  if l ≠ [] ∧ l.all Char.isDigit then some (digitsVal l) else none

/-- Model of Python `int(s)` (char-list level): optional sign, decimal
digits, outer whitespace stripped; `none` models a raised `ValueError`. -/
def pyIntL (l : List Char) : Option Int :=
  match pyStripL l with
  | '-' :: rest => (digitsCore rest).map (fun n => -(n : Int))
  | '+' :: rest => (digitsCore rest).map (fun n => (n : Int))
  | t => (digitsCore t).map (fun n => (n : Int))

/-- Model of Python `int(s)`. -/
def pyInt (s : String) : Option Int := pyIntL s.data

/-- Unsigned decimal literal (`"74"`, `"74.5"`) to `ℚ`. -/
def pyFloatCore (l : List Char) : Option ℚ :=
  match splitOnChar '.' l with
  | [i] => (digitsCore i).map (fun n => (n : ℚ))
  | [i, f] =>
    match digitsCore i, digitsCore f with
    | some n, some m => some ((n : ℚ) + (m : ℚ) / (10 : ℚ) ^ f.length)
    | _, _ => none
  | _ => none

/-- Model of Python `float(s)` on the plain decimal literals that occur in
the data (`"74.5"`, `"-1.5"`, `"3"`); `none` models a raised `ValueError`. -/
def pyFloat (s : String) : Option ℚ :=
  match pyStripL s.data with
  | '-' :: rest => (pyFloatCore rest).map (fun q => -q)
  | '+' :: rest => pyFloatCore rest
  | t => pyFloatCore t

/-- Model of Python `s.replace(needle, repl)` (all occurrences, scanning
left to right); the fuel argument is the length of the scanned list, which
bounds the recursion. -/
def replaceLAux (needle repl : List Char) : Nat → List Char → List Char
  | 0, l => l
  | _ + 1, [] => []
  | fuel + 1, x :: xs =>
    if needle ≠ [] ∧ startsWithL needle (x :: xs) then
      repl ++ replaceLAux needle repl fuel (List.drop needle.length (x :: xs))
    else
      x :: replaceLAux needle repl fuel xs

/-- Model of Python `s.replace(needle, repl)` for a non-empty needle. -/
def pyReplace (s needle repl : String) : String :=
  ⟨replaceLAux needle.data repl.data s.data.length s.data⟩

/-- Model of `home, away = map(int, score.split("-"))` guarded by
`except ValueError`: the score must split on `"-"` into exactly two
parseable integers.  A SQL `NULL` score (`none`) never parses. -/
def parseScore (score : Option String) : Option (Int × Int) :=
  match score with
  | none => none
  | some s =>
    match splitOnChar '-' s.data with
    | [a, b] =>
      match pyIntL a, pyIntL b with
      | some x, some y => some (x, y)
      | _, _ => none
    | _ => none

/-! ### Historical results schema

Rows of the `events` table of `table_tennis_results.db` (the columns the
embedded queries read) and of its `event_scores` table. -/

/-- A row of the historical `events` table. -/
structure ResultEvent where
  event_id : Nat
  event_time : Nat
  home_name : String
  away_name : String
  score : Option String
  time_status : Nat
  deriving DecidableEq, Repr

/-- A row of the `event_scores` per-set breakdown table. -/
structure SetScore where
  event_id : Nat
  set_number : Nat
  home_score : Int
  away_score : Int
  deriving DecidableEq, Repr

/-- `ORDER BY event_time ASC` ordering. -/
def timeLE (a b : ResultEvent) : Prop := a.event_time ≤ b.event_time

instance : DecidableRel timeLE :=
  fun a b => inferInstanceAs (Decidable (a.event_time ≤ b.event_time))

instance : IsTotal ResultEvent timeLE := ⟨fun a b => Nat.le_total a.event_time b.event_time⟩

instance : IsTrans ResultEvent timeLE := ⟨fun _ _ _ h h' => Nat.le_trans h h'⟩

/-- `ORDER BY event_time DESC` ordering. -/
def timeGE (a b : ResultEvent) : Prop := b.event_time ≤ a.event_time

instance : DecidableRel timeGE :=
  fun a b => inferInstanceAs (Decidable (b.event_time ≤ a.event_time))

instance : IsTotal ResultEvent timeGE := ⟨fun a b => Nat.le_total b.event_time a.event_time⟩

instance : IsTrans ResultEvent timeGE := ⟨fun _ _ _ h h' => Nat.le_trans h' h⟩

end TM

namespace DbGetBetResults

/-! ### `db_get_bet_results.py` — ELO rating engine and moneyline valuation -/

open TM

/-- `K_FACTOR = 32`. -/
def K_FACTOR : ℝ := 32

/-- `DEFAULT_ELO = 1500`. -/
def DEFAULT_ELO : ℝ := 1500

/-- `MIN_ROI_ML = 5`. -/
def MIN_ROI_ML : ℝ := 5

/-- `MIN_EDGE = 0.01`. -/
def MIN_EDGE : ℝ := 0.01

/-- `ELO_DIFFERENCE_STRONG_FAVORITE = 150`. -/
def ELO_DIFFERENCE_STRONG_FAVORITE : ℝ := 150

/-- `EDGE_MULTIPLIER_STRONG_FAVORITE = 1.5`. -/
def EDGE_MULTIPLIER_STRONG_FAVORITE : ℝ := 1.5

/-- `_get_expected_score(rating1, rating2)`:
`1 / (1 + 10 ** ((rating2 - rating1) / 400))`. -/
noncomputable def get_expected_score (rating1 rating2 : ℝ) : ℝ :=
  1 / (1 + (10 : ℝ) ^ ((rating2 - rating1) / 400))

/-- `_update_ratings(rating1, rating2, score1, score2)`. -/
noncomputable def update_ratings (rating1 rating2 score1 score2 : ℝ) : ℝ × ℝ :=
  let expected1 := get_expected_score rating1 rating2
  let expected2 := get_expected_score rating2 rating1
  (rating1 + K_FACTOR * (score1 - expected1),
   rating2 + K_FACTOR * (score2 - expected2))

/-- One iteration of the loop body of `_calculate_all_player_elos`: parse the
score (skipping the match on `ValueError`), derive the 1/0 actual scores,
and write back both updated ratings (the away write happens second). -/
noncomputable def eloStep (ratings : String → ℝ) (m : ResultEvent) : String → ℝ :=
  match parseScore m.score with
  | none => ratings
  | some (home_score, away_score) =>
    let s1 : ℝ := if home_score > away_score then 1 else 0
    let s2 : ℝ := 1 - s1
    let r1 := ratings m.home_name
    let r2 := ratings m.away_name
    let nr := update_ratings r1 r2 s1 s2
    fun name =>
      if name = m.away_name then nr.2
      else if name = m.home_name then nr.1
      else ratings name

/-- The SQL row filter of `_calculate_all_player_elos`:
`time_status = 3 AND score IS NOT NULL AND score != ''`. -/
def concludedWithScore (m : ResultEvent) : Bool :=
  m.time_status == 3 &&
    (match m.score with
     | none => false
     | some s => s ≠ "")

/-- `_calculate_all_player_elos`: fold the ELO update over the concluded,
scored matches in ascending `event_time` order, every player starting from
`DEFAULT_ELO`.  The rating map is modelled as a total function (a
`defaultdict(lambda: DEFAULT_ELO)`). -/
noncomputable def calculate_all_player_elos (db : List ResultEvent) : String → ℝ :=
  ((db.filter concludedWithScore).insertionSort timeLE).foldl eloStep
    (fun _ => DEFAULT_ELO)

/-- Modelled from the spec sentence of claim C2 (for the refinement
comparison): fold the per-match ELO update over all concluded matches
(`time_status = 3`) in ascending `event_time` order, with baseline 1500,
where a match whose score does not parse leaves every rating unchanged
(which is what `eloStep` does on a parse failure). -/
noncomputable def specEloSnapshot (db : List ResultEvent) : String → ℝ :=
  ((db.filter (fun m => m.time_status == 3)).insertionSort timeLE).foldl eloStep
    (fun _ => (1500 : ℝ))

/-- Outcome record of `analyze_ml_bet_elo` (the returned 5-tuple;
the float interpolations inside the reason strings are elided). -/
structure MlAnalysis where
  accept : Prop
  est_prob : ℝ
  roi : ℝ
  edge : ℝ
  required_edge : ℝ
  decision_reason : String

open Classical in
/-- `analyze_ml_bet_elo(home_rating, away_rating, selection, odds_value)`. -/
noncomputable def analyze_ml_bet_elo (home_rating away_rating : ℝ)
    (selection : String) (odds_value : ℝ) : MlAnalysis :=
  let prob_home := get_expected_score home_rating away_rating
  let est_prob := if selection = "Home" then prob_home else 1 - prob_home
  let implied_prob := 1 / odds_value
  let edge := est_prob - implied_prob
  let roi := ((est_prob * (odds_value - 1)) - (1 - est_prob)) * 100
  let strong := |home_rating - away_rating| > ELO_DIFFERENCE_STRONG_FAVORITE
  let required_edge :=
    if strong then MIN_EDGE * EDGE_MULTIPLIER_STRONG_FAVORITE else MIN_EDGE
  let accept := roi ≥ MIN_ROI_ML ∧ edge ≥ required_edge
  let reason :=
    if strong then "Rejeitada (ML): Favorito forte, Edge minimo nao atendido"
    else if accept then "Aceita: ROI e Edge ok"
    else "Rejeitada (ML): ROI ou EDGE nao atendidos"
  ⟨accept, est_prob, roi, edge, required_edge, reason⟩

/-- Modelled from the claim sentence of C1: `p` is the ELO expected score
of the selected side. -/
noncomputable def selectedSideProb (home_rating away_rating : ℝ)
    (selection : String) : ℝ :=
  if selection = "Home" then get_expected_score home_rating away_rating
  else get_expected_score away_rating home_rating

open Classical in
/-- Modelled from the claim sentence of C1: the required edge is
`MIN_EDGE`, scaled by 1.5 when the absolute rating difference exceeds
`ELO_DIFFERENCE_STRONG_FAVORITE`. -/
noncomputable def claimRequiredEdge (home_rating away_rating : ℝ) : ℝ :=
  if |home_rating - away_rating| > ELO_DIFFERENCE_STRONG_FAVORITE then
    MIN_EDGE * EDGE_MULTIPLIER_STRONG_FAVORITE
  else
    MIN_EDGE

end DbGetBetResults


namespace Monitor

/-! ### `monitor.py` — event store, dedup engine, fetch client, odds extractor -/

open TM

/-- The fields of a raw feed event dict that `is_duplicate_event` reads.
`time` is the scheduled time after the string-to-int coercion in the
source (a missing or unparseable time is already 0); `league_id` is
`none` when the key is absent. -/
structure RawEvent where
  id : String
  home_name : String
  away_name : String
  league_id : Option Int
  time : Int
  deriving DecidableEq, Repr

/-- A stored row of the `events` table (the columns the dedup query
reads). -/
structure EventRow where
  id : String
  time : Int
  league_id : Option Int
  home_team : String
  away_team : String
  deriving DecidableEq, Repr

/-- The `DatabaseManager` state used by the dedup engine: the `events`
table and the in-memory `cache_existing_events` id cache. -/
structure EventStore where
  events : List EventRow
  cache_existing_events : List String
  deriving DecidableEq, Repr

/-- SQL `=` on a nullable column: a `NULL` on either side never matches. -/
def sqlEq (a b : Option Int) : Bool :=
  match a, b with
  | some x, some y => x == y
  | _, _ => false

/-- Python truthiness of the `league_id` value (`not league_id`). -/
def leagueFalsy : Option Int → Bool
  | none => true
  | some n => n == 0

/-- `is_duplicate_event(event, time_threshold_hours=6)`: insufficient
signal (empty stripped team name, falsy league id, zero time) is never a
duplicate; a candidate whose id is already cached is never a duplicate;
otherwise look for a stored row in the same league with the same team
names, a time within the threshold window, and a different id. -/
def is_duplicate_event (db : EventStore) (event : RawEvent)
    (time_threshold_hours : Int := 6) : Bool :=
  let home_team := pyStrip event.home_name
  let away_team := pyStrip event.away_name
  if home_team == "" || away_team == "" || leagueFalsy event.league_id ||
      event.time == 0 then
    false
  else if db.cache_existing_events.contains event.id then
    false
  else
    let time_start := event.time - time_threshold_hours * 3600
    let time_end := event.time + time_threshold_hours * 3600
    db.events.any (fun r =>
      sqlEq r.league_id event.league_id && r.home_team == home_team &&
        r.away_team == away_team && time_start ≤ r.time && r.time ≤ time_end &&
        r.id != event.id)

/-- Modelled from the claim sentence of C4: duplicate iff the candidate id
is not already stored and some stored fixture shares league id and the
exact (home, away) pair, lies within the time threshold, and has a
different external id; never a duplicate when a team name is empty or the
time is missing/zero. -/
def claimDuplicateRule (db : EventStore) (event : RawEvent)
    (time_threshold_hours : Int := 6) : Bool :=
  let home_team := pyStrip event.home_name
  let away_team := pyStrip event.away_name
  if home_team == "" || away_team == "" || event.time == 0 then
    false
  else
    !(db.cache_existing_events.contains event.id) &&
      db.events.any (fun r =>
        r.league_id == event.league_id && r.home_team == home_team &&
          r.away_team == away_team &&
          event.time - time_threshold_hours * 3600 ≤ r.time &&
          r.time ≤ event.time + time_threshold_hours * 3600 &&
          r.id != event.id)

/-- Modelled from the amended claim of C4: the claimed decision rule with
the additional guard that a candidate with a missing or zero league id is
never a duplicate (and league ids compared as plain values, which under
that guard coincides with the SQL comparison). -/
def amendedDuplicateRule (db : EventStore) (event : RawEvent)
    (time_threshold_hours : Int := 6) : Bool :=
  let home_team := pyStrip event.home_name
  let away_team := pyStrip event.away_name
  if home_team == "" || away_team == "" || leagueFalsy event.league_id ||
      event.time == 0 then
    false
  else
    !(db.cache_existing_events.contains event.id) &&
      (let time_start := event.time - time_threshold_hours * 3600
       let time_end := event.time + time_threshold_hours * 3600
       db.events.any (fun r =>
        r.league_id == event.league_id && r.home_team == home_team &&
          r.away_team == away_team && time_start ≤ r.time && r.time ≤ time_end &&
          r.id != event.id))

/-! ### Fetch client (`Bet365Client._make_request`) -/

/-- The parsed JSON envelope of one feed response: the `success` and
`error` fields as read by `data.get(...)`, plus an opaque body tag so that
distinct responses can be told apart. -/
structure Payload where
  success : Option Int
  error : Option String
  body : Nat
  deriving DecidableEq, Repr

/-- What one attempt of the request loop observes. -/
inductive ApiResp where
  /-- `httpx.HTTPError` raised by the transport or `raise_for_status`. -/
  | httpError : ApiResp
  /-- any other exception (e.g. `response.json()` failing): caught by the
  generic `except Exception` handler. -/
  | otherError : ApiResp
  /-- a decoded JSON envelope. -/
  | payload : Payload → ApiResp
  deriving DecidableEq, Repr

/-- How `_make_request` ends. -/
inductive ReqOutcome where
  /-- `return data` -/
  | returned : Payload → ReqOutcome
  /-- `raise BetsAPIError(...)` (with a marker for which raise site) -/
  | raised : String → ReqOutcome
  /-- the `for` loop ran zero iterations (only if `retry_attempts = 0`) -/
  | fellThrough : ReqOutcome
  deriving DecidableEq, Repr

/-- Is the error message classified as a rate limit
(`"rate limit" in error_msg.lower()`)? -/
def isRateLimitMsg (error : Option String) : Bool :=
  strContains (pyLower (error.getD "Unknown error")) "rate limit"

/-- Is this attempt outcome caught by the retry handler
(`except (httpx.HTTPError, RateLimitError, BetsAPIError)`)?  Note that a
`success=0` payload raises `RateLimitError` or `BetsAPIError`, both of
which are in the caught tuple. -/
def isCaughtFailure : ApiResp → Bool
  | .httpError => true
  | .otherError => false
  | .payload p => p.success == some 0

/-- The retry loop of `_make_request`.  `responses attempt` is the
response observed by iteration `attempt`; `remaining` counts the loop
iterations still to run (started at `retry_attempts`, so
`remaining = 1` exactly on the last attempt); `sleeps` accumulates the
backoff delays actually slept. -/
def requestLoop (responses : Nat → ApiResp) (retry_delay : ℚ) :
    Nat → Nat → List ℚ → ReqOutcome × List ℚ
  | 0, _, sleeps => (.fellThrough, sleeps)
  | remaining + 1, attempt, sleeps =>
    match responses attempt with
    | .otherError => (.raised "Unexpected error", sleeps)
    | .httpError =>
      if remaining = 0 then (.raised "Request failed after retry_attempts attempts", sleeps)
      else requestLoop responses retry_delay remaining (attempt + 1)
        (sleeps ++ [retry_delay * 2 ^ attempt])
    | .payload p =>
      if p.success == some 0 then
        -- raises RateLimitError or BetsAPIError; both are caught below
        if remaining = 0 then (.raised "Request failed after retry_attempts attempts", sleeps)
        else requestLoop responses retry_delay remaining (attempt + 1)
          (sleeps ++ [retry_delay * 2 ^ attempt])
      else (.returned p, sleeps)

/-- `_make_request`: run the attempt loop with the configured attempt cap
and base delay. -/
def make_request (responses : Nat → ApiResp) (retry_attempts : Nat)
    (retry_delay : ℚ) : ReqOutcome × List ℚ :=
  requestLoop responses retry_delay retry_attempts 0 []

/-! ### Odds extractor (`save_odds_batch`) -/

/-- One outcome entry of a market section, with the fields
`outcome.get("name", "")`, `outcome.get("header", "")`,
`outcome.get("odds", 0)` and `outcome.get("handicap", "")` as read by
`save_odds_batch`.  The odds value is kept as the raw string (`none` for
a missing/falsy value). -/
structure Outcome where
  name : String
  header : String
  odds : Option String
  handicap : String
  deriving DecidableEq, Repr

/-- The result of `extract_important_odds`: the flattened `match_lines`
and `1st_game` outcome lists. -/
structure OddsData where
  match_lines : List Outcome
  first_game : List Outcome
  deriving DecidableEq, Repr

/-- A row of the `match_odds` / `first_game_odds` tables. -/
structure QuoteRow where
  event_id : String
  market_type : String
  selection : String
  odds : ℚ
  handicap_value : String
  updated_at : ℚ
  deriving DecidableEq, Repr

/-- `float(odds_value) if odds_value else 0` with the `except` fallback
to 0. -/
def coerceOdds (odds : Option String) : ℚ :=
  match odds with
  | none => 0
  | some s => if s == "" then 0 else (pyFloat s).getD 0

/-- The `if market_name == ... / elif ... / elif ...` classification chain
of `save_odds_batch`, producing the quote row appended to
`odds_to_insert` (if any). -/
def classifyOutcome (event_id : String) (now : ℚ) (o : Outcome) :
    Option QuoteRow :=
  let odds_float := coerceOdds o.odds
  if o.name == "To Win" && (o.header == "1" || o.header == "2") then
    some ⟨event_id, "To Win", if o.header == "1" then "Home" else "Away",
      odds_float, "", now⟩
  else if o.name == "Total" && (o.header == "1" || o.header == "2") &&
      o.handicap != "" then
    some ⟨event_id, "Total",
      (if o.header == "1" then "Over" else "Under") ++ " " ++ o.handicap,
      odds_float, o.handicap, now⟩
  else if o.name == "Handicap" && (o.header == "1" || o.header == "2") &&
      o.handicap != "" then
    some ⟨event_id, "Handicap", if o.header == "1" then "Home" else "Away",
      odds_float, o.handicap, now⟩
  else
    none

/-- The UNIQUE key `(event_id, market_type, selection, handicap_value)` of
the quote tables (all four columns are non-NULL strings here). -/
def quoteKey (r : QuoteRow) : String × String × String × String :=
  (r.event_id, r.market_type, r.selection, r.handicap_value)

/-- `INSERT OR IGNORE` of one row against the UNIQUE key; returns the
table and the number of rows actually inserted (the `rowcount`
contribution). -/
def insertOrIgnoreQuote (t : List QuoteRow) (r : QuoteRow) :
    List QuoteRow × Nat :=
  if t.any (fun q => quoteKey q == quoteKey r) then (t, 0) else (t ++ [r], 1)

/-- One `executemany` step: insert a row, accumulating the rowcount. -/
def insStep (acc : List QuoteRow × Nat) (r : QuoteRow) : List QuoteRow × Nat :=
  let s := insertOrIgnoreQuote acc.1 r
  (s.1, acc.2 + s.2)

/-- `executemany` of `INSERT OR IGNORE` over a row list. -/
def insertOrIgnoreMany (t : List QuoteRow) (rows : List QuoteRow) :
    List QuoteRow × Nat :=
  rows.foldl insStep (t, 0)

/-- The two quote tables. -/
structure OddsTables where
  match_odds : List QuoteRow
  first_game_odds : List QuoteRow
  deriving DecidableEq, Repr

/-- The per-event body of the `save_odds_batch` loop: classify the
`match_lines` outcomes into `match_odds` rows and the `1st_game` outcomes
into `first_game_odds` rows, and insert each batch with
`INSERT OR IGNORE`, accumulating `new_odds_count`. -/
def saveOddsStep (now : ℚ) (acc : OddsTables × Nat) (eo : String × OddsData) :
    OddsTables × Nat :=
  let mlRows := eo.2.match_lines.filterMap (classifyOutcome eo.1 now)
  let fgRows := eo.2.first_game.filterMap (classifyOutcome eo.1 now)
  let s1 := insertOrIgnoreMany acc.1.match_odds mlRows
  let s2 := insertOrIgnoreMany acc.1.first_game_odds fgRows
  (⟨s1.1, s2.1⟩, acc.2 + s1.2 + s2.2)

/-- `save_odds_batch(event_odds)`: run `saveOddsStep` over the batch;
returns the updated tables and `new_odds_count`.  (`now` models
`datetime.now().timestamp()`.) -/
def save_odds_batch (tables : OddsTables) (event_odds : List (String × OddsData))
    (now : ℚ) : OddsTables × Nat :=
  event_odds.foldl (saveOddsStep now) (tables, 0)

end Monitor


namespace TM

/-- `ORDER BY set_number` ordering on per-set scores. -/
def setNumLE (a b : SetScore) : Prop := a.set_number ≤ b.set_number

instance : DecidableRel setNumLE :=
  fun a b => inferInstanceAs (Decidable (a.set_number ≤ b.set_number))

instance : IsTotal SetScore setNumLE := ⟨fun a b => Nat.le_total a.set_number b.set_number⟩

instance : IsTrans SetScore setNumLE := ⟨fun _ _ _ h h' => Nat.le_trans h h'⟩

/-- Python truthiness of a nullable string. -/
def strTruthy : Option String → Bool
  | none => false
  | some s => s != ""

end TM

namespace DbGetBets

/-! ### `db_get_bets.py` — win-rate valuation engine and bet persistence -/

open TM

/-- A row of the upcoming `events` query (`get_all_upcoming_matches`). -/
structure UpcomingMatch where
  event_id : Nat
  league_name : String
  home_team : String
  away_team : String
  event_time : Nat
  deriving DecidableEq, Repr

/-- A row of the `match_odds` query (`get_match_odds`). -/
structure OddsQuote where
  market_type : String
  selection : String
  odds : ℚ
  handicap_value : Option String
  deriving DecidableEq, Repr

/-- `get_player_last_10_matches(player_name)`: all matches of the player
(any status), newest first, `LIMIT 10`. -/
def get_player_last_10_matches (resultsDb : List ResultEvent)
    (player_name : String) : List ResultEvent :=
  (((resultsDb.filter (fun m =>
      m.home_name == player_name || m.away_name == player_name)).insertionSort
    timeGE).take 10)

/-- The dict returned by `get_head_to_head_stats`. -/
structure H2HStats where
  total_matches : Nat
  player1_wins : Nat
  player2_wins : Nat
  win_rate_player1 : ℚ
  deriving DecidableEq, Repr

/-- `get_head_to_head_stats(player1, player2)`: concluded direct meetings,
newest first; wins are counted from parseable scores only, while
`total_matches` counts every returned row. -/
def get_head_to_head_stats (resultsDb : List ResultEvent)
    (player1 player2 : String) : H2HStats :=
  let df := ((resultsDb.filter (fun m =>
      ((m.home_name == player1 && m.away_name == player2) ||
        (m.home_name == player2 && m.away_name == player1)) &&
        m.time_status == 3)).insertionSort timeGE)
  if df.isEmpty then
    ⟨0, 0, 0, 0⟩
  else
    let counts := df.foldl (fun (acc : Nat × Nat) row =>
      match row.score with
      | none => acc
      | some s =>
        if s != "" && strContains s "-" then
          match parseScore (some s) with
          | none => acc
          | some (home_score, away_score) =>
            if row.home_name == player1 then
              if home_score > away_score then (acc.1 + 1, acc.2)
              else (acc.1, acc.2 + 1)
            else
              if away_score > home_score then (acc.1 + 1, acc.2)
              else (acc.1, acc.2 + 1)
        else acc) (0, 0)
    let total_matches := df.length
    ⟨total_matches, counts.1, counts.2,
      if total_matches > 0 then (counts.1 : ℚ) / (total_matches : ℚ) else 0⟩

/-- `get_detailed_scores(event_id)`: the per-set scores of one event,
ordered by set number. -/
def get_detailed_scores (scoresDb : List SetScore) (event_id : Nat) :
    List SetScore :=
  (scoresDb.filter (fun s => s.event_id == event_id)).insertionSort setNumLE

/-- The dict returned by `calculate_player_stats`. -/
structure PlayerStats where
  total_matches : Nat
  wins : Nat
  losses : Nat
  win_rate : ℚ
  total_games_played : Int
  avg_games_per_match : ℚ
  games_per_match_list : List Int
  deriving DecidableEq, Repr

/-- `calculate_player_stats(player_name, matches_df)`. -/
def calculate_player_stats (scoresDb : List SetScore) (player_name : String)
    (matches_df : List ResultEvent) : PlayerStats :=
  if matches_df.isEmpty then
    ⟨0, 0, 0, 0, 0, 0, []⟩
  else
    let acc := matches_df.foldl
      (fun (acc : Nat × Nat × Int × List Int) m =>
        let is_home := m.home_name == player_name
        let total_games := (get_detailed_scores scoresDb m.event_id).foldl
          (fun t ss => t + ss.home_score + ss.away_score) 0
        let games_list := acc.2.2.2 ++ [total_games]
        let total_played := acc.2.2.1 + total_games
        match m.score with
        | none => (acc.1, acc.2.1, total_played, games_list)
        | some s =>
          if s != "" && strContains s "-" then
            match parseScore (some s) with
            | none => (acc.1, acc.2.1, total_played, games_list)
            | some (home_score, away_score) =>
              if (is_home && home_score > away_score) ||
                  (!is_home && away_score > home_score) then
                (acc.1 + 1, acc.2.1, total_played, games_list)
              else
                (acc.1, acc.2.1 + 1, total_played, games_list)
          else (acc.1, acc.2.1, total_played, games_list))
      (0, 0, 0, [])
    let total_matches := matches_df.length
    ⟨total_matches, acc.1, acc.2.1,
      if total_matches > 0 then (acc.1 : ℚ) / (total_matches : ℚ) * 100 else 0,
      acc.2.2.1,
      if total_matches > 0 then (acc.2.2.1 : ℚ) / (total_matches : ℚ) else 0,
      acc.2.2.2⟩

/-- `calculate_estimated_roi(estimated_prob, odds)`. -/
def calculate_estimated_roi (estimated_prob odds : ℚ) : ℚ :=
  if estimated_prob ≤ 0 || odds ≤ 1 then 0
  else ((estimated_prob * (odds - 1)) - (1 - estimated_prob)) * 100

/-- The bet dict appended to `valuable_bets` by `analyze_bet_value`. -/
structure NewBet where
  event_id : Nat
  league_name : String
  home_team : String
  away_team : String
  event_time : Nat
  bet_type : String
  selection : String
  handicap : Option ℚ
  odds : ℚ
  fair_odds : ℚ
  estimated_roi : ℚ
  deriving DecidableEq, Repr

/-- The per-quote loop body of `analyze_bet_value` (given the precomputed
player and head-to-head stats): the list of bets this quote contributes. -/
def analyzeOneQuote (home_stats away_stats : PlayerStats) (h2h_stats : H2HStats)
    (mtch : UpcomingMatch) (odd : OddsQuote) : List NewBet :=
  let home_player := mtch.home_team
  let away_player := mtch.away_team
  let handicap_value : Option ℚ :=
    if odd.market_type == "Total" && strTruthy odd.handicap_value then
      pyFloat (pyReplace (pyReplace (odd.handicap_value.getD "") "O " "") "U " "")
    else none
  if odd.market_type == "To Win" then
    if odd.selection == "Home" then
      let base_prob := home_stats.win_rate / 100
      let adjusted_prob :=
        if h2h_stats.total_matches > 0 then
          (7 / 10 : ℚ) * base_prob + (3 / 10 : ℚ) * h2h_stats.win_rate_player1
        else base_prob
      let estimated_roi := calculate_estimated_roi adjusted_prob odd.odds
      if estimated_roi ≥ 30 then
        [⟨mtch.event_id, mtch.league_name, home_player, away_player,
          mtch.event_time, odd.market_type, odd.selection, none, odd.odds,
          if adjusted_prob > 0 then 1 / adjusted_prob else 0, estimated_roi⟩]
      else []
    else if odd.selection == "Away" then
      let base_prob := away_stats.win_rate / 100
      let adjusted_prob :=
        if h2h_stats.total_matches > 0 then
          (7 / 10 : ℚ) * base_prob +
            (3 / 10 : ℚ) * (1 - h2h_stats.win_rate_player1)
        else base_prob
      let estimated_roi := calculate_estimated_roi adjusted_prob odd.odds
      if estimated_roi ≥ 30 then
        [⟨mtch.event_id, mtch.league_name, home_player, away_player,
          mtch.event_time, odd.market_type, odd.selection, none, odd.odds,
          if adjusted_prob > 0 then 1 / adjusted_prob else 0, estimated_roi⟩]
      else []
    else []
  else if odd.market_type == "Total" && handicap_value.isSome then
    let hv := handicap_value.getD 0
    let all_games := home_stats.games_per_match_list ++
      away_stats.games_per_match_list
    if strContains odd.selection "Over" then
      let over_count := (all_games.filter (fun g => (g : ℚ) > hv)).length
      let total_games := all_games.length
      let est_prob :=
        if total_games > 0 then (over_count : ℚ) / (total_games : ℚ) else 0
      let estimated_roi := calculate_estimated_roi est_prob odd.odds
      if estimated_roi ≥ 20 then
        [⟨mtch.event_id, mtch.league_name, home_player, away_player,
          mtch.event_time, odd.market_type, odd.selection, handicap_value,
          odd.odds, if est_prob > 0 then 1 / est_prob else 0, estimated_roi⟩]
      else []
    else if strContains odd.selection "Under" then
      let under_count := (all_games.filter (fun g => (g : ℚ) < hv)).length
      let total_games := all_games.length
      let est_prob :=
        if total_games > 0 then (under_count : ℚ) / (total_games : ℚ) else 0
      let estimated_roi := calculate_estimated_roi est_prob odd.odds
      if estimated_roi ≥ 20 then
        [⟨mtch.event_id, mtch.league_name, home_player, away_player,
          mtch.event_time, odd.market_type, odd.selection, handicap_value,
          odd.odds, if est_prob > 0 then 1 / est_prob else 0, estimated_roi⟩]
      else []
    else []
  else []

/-- `analyze_bet_value(match, odds_df)`: compute both players' last-10
stats and the head-to-head stats, discard the event unless both players
have at least 15 matches, then scan the quotes. -/
def analyze_bet_value (resultsDb : List ResultEvent) (scoresDb : List SetScore)
    (mtch : UpcomingMatch) (odds_df : List OddsQuote) : List NewBet :=
  let home_matches := get_player_last_10_matches resultsDb mtch.home_team
  let home_stats := calculate_player_stats scoresDb mtch.home_team home_matches
  let away_matches := get_player_last_10_matches resultsDb mtch.away_team
  let away_stats := calculate_player_stats scoresDb mtch.away_team away_matches
  let h2h_stats := get_head_to_head_stats resultsDb mtch.home_team mtch.away_team
  if home_stats.total_matches < 15 || away_stats.total_matches < 15 then []
  else
    odds_df.foldl (fun acc odd =>
      acc ++ analyzeOneQuote home_stats away_stats h2h_stats mtch odd) []

/-! ### Bet persistence (`save_top_bets_by_league`, `bets` table) -/

/-- A stored row of the `bets` table of `db_get_bets.py` (timestamps
elided): the candidate columns plus the settlement fields `result`,
`profit`, `actual_result`, which are filled later by the settlement
collaborator and are `NULL` on insert. -/
structure BetRow where
  event_id : Nat
  league_name : String
  home_team : String
  away_team : String
  event_time : Nat
  bet_type : String
  selection : String
  handicap : Option ℚ
  odds : ℚ
  fair_odds : ℚ
  estimated_roi : ℚ
  result : Option Int
  profit : Option ℚ
  actual_result : Option String
  deriving DecidableEq, Repr

/-- Does a stored row conflict with an inserted candidate on the
`UNIQUE(event_id, bet_type, selection, handicap)` key?  Per SQLite
semantics a `NULL` handicap never conflicts, not even with `NULL`. -/
def betConflict (r : BetRow) (b : NewBet) : Bool :=
  r.event_id == b.event_id && r.bet_type == b.bet_type &&
    r.selection == b.selection &&
    (match r.handicap, b.handicap with
     | some x, some y => x == y
     | _, _ => false)

/-- The freshly inserted row for a candidate: every column not named in
the `INSERT` statement (the settlement fields) is `NULL`. -/
def toBetRow (b : NewBet) : BetRow :=
  ⟨b.event_id, b.league_name, b.home_team, b.away_team, b.event_time,
    b.bet_type, b.selection, b.handicap, b.odds, b.fair_odds,
    b.estimated_roi, none, none, none⟩

/-- `INSERT OR REPLACE INTO bets`: delete every conflicting row, then
insert the new row. -/
def insertOrReplaceBet (t : List BetRow) (b : NewBet) : List BetRow :=
  t.filter (fun r => !(betConflict r b)) ++ [toBetRow b]

/-- The `(league_name, event date)` grouping key; `.date()` is modelled as
the UTC day number of the unix timestamp. -/
def groupKey (b : NewBet) : String × Nat := (b.league_name, b.event_time / 86400)

/-- One step of collecting the group keys in first-appearance order. -/
def keyStep (acc : List (String × Nat)) (b : NewBet) : List (String × Nat) :=
  if acc.contains (groupKey b) then acc else acc ++ [groupKey b]

/-- The group keys in first-appearance order (Python dict insertion
order). -/
def keysInOrder (all_bets : List NewBet) : List (String × Nat) :=
  all_bets.foldl keyStep []

/-- `sort(key=lambda x: x["estimated_roi"], reverse=True)` ordering
(descending ROI; `insertionSort` is stable like Python sort). -/
def roiDesc (a b : NewBet) : Prop := b.estimated_roi ≤ a.estimated_roi

instance : DecidableRel roiDesc :=
  fun a b => inferInstanceAs (Decidable (b.estimated_roi ≤ a.estimated_roi))

instance : IsTotal NewBet roiDesc := ⟨fun a b => le_total b.estimated_roi a.estimated_roi⟩

instance : IsTrans NewBet roiDesc := ⟨fun _ _ _ h h' => le_trans h' h⟩

/-- The bets `save_top_bets_by_league` actually inserts, in insertion
order: per `(league, event day)` group, the top 20 `To Win` bets by ROI
followed by the top 20 `Total` bets by ROI. -/
def top_bets_for (all_bets : List NewBet) : List NewBet :=
  (keysInOrder all_bets).flatMap (fun k =>
    let league_bets := all_bets.filter (fun b => groupKey b == k)
    let ml_bets := league_bets.filter (fun b => b.bet_type == "To Win")
    let ou_bets := league_bets.filter (fun b => b.bet_type == "Total")
    (ml_bets.insertionSort roiDesc).take 20 ++
      (ou_bets.insertionSort roiDesc).take 20)

/-- `save_top_bets_by_league(all_bets)`: group by league and event day,
keep the per-type top 20 by ROI, and `INSERT OR REPLACE` each kept bet;
returns the table and `total_saved` (the `INSERT OR REPLACE` rowcount is
always 1, so every kept bet counts). -/
def save_top_bets_by_league (t : List BetRow) (all_bets : List NewBet) :
    List BetRow × Nat :=
  ((top_bets_for all_bets).foldl insertOrReplaceBet t,
    (top_bets_for all_bets).length)

end DbGetBets

namespace DbGetBetResults

open TM

/-! ### Bet persistence of the ELO processor (`db_get_bet_results.py`) -/

/-- The bet dict the ELO processor inserts (the 22 columns of its
`INSERT OR REPLACE` statement). -/
structure EloBet where
  event_id : Nat
  league_name : String
  home_team : String
  away_team : String
  event_time : Nat
  bet_type : String
  selection : String
  handicap : Option ℚ
  odds : ℚ
  fair_odds : ℚ
  estimated_roi : ℚ
  home_elo_at_bet : ℚ
  away_elo_at_bet : ℚ
  elo_prob_home : ℚ
  implied_prob : ℚ
  bet_edge : ℚ
  min_roi_required : ℚ
  bet_decision_reason : String
  player_form_home : String
  player_form_away : String
  h2h_summary : String
  bet_timestamp : Nat
  deriving DecidableEq, Repr

/-- A stored row of the ELO processor's `bets` table: the inserted columns
plus the settlement fields, `NULL` on insert. -/
structure EloBetRow where
  bet : EloBet
  result : Option Int
  profit : Option ℚ
  actual_result : Option String
  deriving DecidableEq, Repr

/-- `UNIQUE(event_id, bet_type, selection, handicap)` conflict (SQLite
`NULL` handicap never conflicts). -/
def eloBetConflict (r : EloBetRow) (b : EloBet) : Bool :=
  r.bet.event_id == b.event_id && r.bet.bet_type == b.bet_type &&
    r.bet.selection == b.selection &&
    (match r.bet.handicap, b.handicap with
     | some x, some y => x == y
     | _, _ => false)

/-- `INSERT OR REPLACE` of one bet: conflicting rows are deleted; the
settlement columns of the fresh row are `NULL`. -/
def insertOrReplaceEloBet (t : List EloBetRow) (b : EloBet) : List EloBetRow :=
  t.filter (fun r => !(eloBetConflict r b)) ++ [⟨b, none, none, none⟩]

/-- `save_top_bets_by_league(all_bets)` of `db_get_bet_results.py`: insert
every bet of `all_bets` with `INSERT OR REPLACE` (no grouping and no cap);
`total_saved` counts every bet since the `INSERT OR REPLACE` rowcount is
always 1. -/
def save_top_bets_by_league (t : List EloBetRow) (all_bets : List EloBet) :
    List EloBetRow × Nat :=
  (all_bets.foldl insertOrReplaceEloBet t, all_bets.length)

end DbGetBetResults

/-! ## Theorems -/

namespace TM

/-! ### Stable-sort helper lemmas

`List.insertionSort` (the model of SQL `ORDER BY`) commutes with
`List.filter`; this lets the SQL `WHERE` clause of the rating query be
compared with the claim-side filter. -/

section SortFilter

variable {α : Type*} (r : α → α → Prop) [DecidableRel r]

theorem orderedInsert_of_forall_rel {a : α} {l : List α} (h : ∀ x ∈ l, r a x) :
    l.orderedInsert r a = a :: l := by
  cases l with
  | nil => rfl
  | cons b t =>
    unfold List.orderedInsert
    rw [if_pos (h b (List.mem_cons_self b t))]

variable [IsTrans α r]

theorem filter_orderedInsert (p : α → Bool) (a : α) :
    ∀ l : List α, l.Sorted r →
      (l.orderedInsert r a).filter p =
        if p a then (l.filter p).orderedInsert r a else l.filter p := by
  intro l
  induction l with
  | nil =>
    intro _
    by_cases hpa : p a <;> simp [List.orderedInsert, hpa]
  | cons b t ih =>
    intro hsort
    by_cases hr : r a b
    · rw [List.orderedInsert_of_le r _ hr]
      have hall : ∀ x ∈ (b :: t).filter p, r a x := by
        intro x hx
        have hx' := List.mem_of_mem_filter hx
        rcases List.mem_cons.mp hx' with hxb | hxt
        · exact hxb ▸ hr
        · exact Trans.trans hr (List.rel_of_sorted_cons hsort x hxt)
      by_cases hpa : p a
      · rw [orderedInsert_of_forall_rel r hall]
        simp [hpa]
      · simp [hpa]
    · have hstep : ∀ l : List α,
          List.orderedInsert r a (b :: l) = b :: List.orderedInsert r a l := by
        intro l
        show (if r a b then a :: b :: l else b :: List.orderedInsert r a l) = _
        rw [if_neg hr]
      have ih' := ih hsort.of_cons
      rw [hstep t]
      by_cases hpb : p b <;> by_cases hpa : p a
      · simp only [List.filter_cons_of_pos hpb, ih', if_pos hpa, hstep]
      · simp only [List.filter_cons_of_pos hpb, ih', if_neg hpa]
      · simp only [List.filter_cons_of_neg hpb, ih', if_pos hpa]
      · simp only [List.filter_cons_of_neg hpb, ih', if_neg hpa]

variable [IsTotal α r]

theorem filter_insertionSort (p : α → Bool) (l : List α) :
    (l.insertionSort r).filter p = (l.filter p).insertionSort r := by
  induction l with
  | nil => rfl
  | cons a t ih =>
    show ((t.insertionSort r).orderedInsert r a).filter p = _
    rw [filter_orderedInsert r p a _ (List.sorted_insertionSort r t), ih]
    by_cases hpa : p a <;> simp [hpa, List.insertionSort]

end SortFilter

end TM

namespace DbGetBetResults

open TM

/-! ### Rating engine lemmas -/

/-- The two expected scores of a match sum to 1. -/
theorem expected_score_add (r1 r2 : ℝ) :
    get_expected_score r1 r2 + get_expected_score r2 r1 = 1 := by
  unfold get_expected_score
  have hpos : (0 : ℝ) < (10 : ℝ) ^ ((r2 - r1) / 400) :=
    Real.rpow_pos_of_pos (by norm_num) _
  have hneg : (10 : ℝ) ^ ((r1 - r2) / 400) = ((10 : ℝ) ^ ((r2 - r1) / 400))⁻¹ := by
    rw [← Real.rpow_neg (by norm_num : (0 : ℝ) ≤ 10)]
    ring_nf
  rw [hneg]
  have h1 : (1 : ℝ) + (10 : ℝ) ^ ((r2 - r1) / 400) ≠ 0 := by positivity
  field_simp
  ring

/-- A match whose score fails to parse is a no-op for the rating fold. -/
theorem eloStep_of_parse_none {ratings : String → ℝ} {m : ResultEvent}
    (h : parseScore m.score = none) : eloStep ratings m = ratings := by
  unfold eloStep
  rw [h]

/-- Matches whose score fails to parse can be dropped from the fold. -/
theorem foldl_eloStep_filter (l : List ResultEvent) (init : String → ℝ) :
    l.foldl eloStep init =
      (l.filter (fun m => (parseScore m.score).isSome)).foldl eloStep init := by
  induction l generalizing init with
  | nil => rfl
  | cons m t ih =>
    by_cases hm : (parseScore m.score).isSome
    · have hf : (m :: t).filter (fun m => (parseScore m.score).isSome)
          = m :: t.filter (fun m => (parseScore m.score).isSome) := by
        simp [List.filter_cons, hm]
      rw [List.foldl_cons, hf, List.foldl_cons, ih]
    · have hf : (m :: t).filter (fun m => (parseScore m.score).isSome)
          = t.filter (fun m => (parseScore m.score).isSome) := by
        simp [List.filter_cons, hm]
      rw [List.foldl_cons, hf,
        eloStep_of_parse_none (Option.not_isSome_iff_eq_none.mp hm), ih]

/-- A parseable score is neither `NULL` nor the empty string, so the SQL
score filter is subsumed by parse success. -/
theorem concludedWithScore_of_parse (m : ResultEvent)
    (h : (parseScore m.score).isSome) :
    concludedWithScore m = (m.time_status == 3) := by
  unfold concludedWithScore
  cases hs : m.score with
  | none =>
    rw [hs] at h
    exact absurd h (by decide)
  | some s =>
    have hne : s ≠ "" := by
      intro hempty
      rw [hs, hempty] at h
      exact absurd h (by decide)
    simp [hne]

/-! ### Claim theorems for the rating engine -/

/-- C2: `_calculate_all_player_elos` is exactly the chronological fold of
the per-match ELO update over all concluded matches in ascending
`event_time` order with baseline 1500, and a match whose score string does
not parse as two integers separated by `-` leaves every rating
unchanged. -/
theorem C2_elo_chronological_fold (db : List ResultEvent) :
    calculate_all_player_elos db = specEloSnapshot db ∧
    ∀ (ratings : String → ℝ) (m : ResultEvent),
      parseScore m.score = none → eloStep ratings m = ratings := by
  refine ⟨?_, fun ratings m h => eloStep_of_parse_none h⟩
  unfold calculate_all_player_elos specEloSnapshot
  have h1 := foldl_eloStep_filter
    ((db.filter concludedWithScore).insertionSort timeLE) (fun _ => DEFAULT_ELO)
  have h2 := foldl_eloStep_filter
    ((db.filter (fun m => m.time_status == 3)).insertionSort timeLE)
    (fun _ => (1500 : ℝ))
  rw [h1, h2, filter_insertionSort timeLE, filter_insertionSort timeLE,
    List.filter_filter, List.filter_filter]
  congr 1
  congr 1
  apply List.filter_congr
  intro m _
  by_cases hm : (parseScore m.score).isSome
  · rw [concludedWithScore_of_parse m hm]
  · have hm' : (parseScore m.score).isSome = false := by
      simpa using hm
    simp [hm']

/-- C3: the ELO update is zero-sum — whenever the actual scores sum to 1,
the rating gain of one player equals the rating loss of the other. -/
theorem C3_elo_update_zero_sum (r1 r2 s1 s2 : ℝ) (h : s1 + s2 = 1) :
    ((update_ratings r1 r2 s1 s2).1 - r1) + ((update_ratings r1 r2 s1 s2).2 - r2) = 0 := by
  have hsum := expected_score_add r1 r2
  simp only [update_ratings, K_FACTOR]
  ring_nf
  nlinarith [hsum, h]

/-- Witness for C3 at ratings 1600/1500 with scores 1 and 0. -/
theorem C3_elo_update_zero_sum_witness :
    (1 : ℝ) + 0 = 1 ∧
      ((update_ratings 1600 1500 1 0).1 - 1600) +
        ((update_ratings 1600 1500 1 0).2 - 1500) = 0 :=
  ⟨by norm_num, C3_elo_update_zero_sum 1600 1500 1 0 (by norm_num)⟩

/-- C1: `analyze_ml_bet_elo` accepts exactly when the ROI
`100 * (p*(odds-1) - (1-p))` meets `MIN_ROI_ML` and the edge `p - 1/odds`
meets the (strong-favorite-scaled) required edge, where `p` is the ELO
expected score of the selected side; a candidate at the ROI boundary with
sufficient edge is accepted, one strictly below is rejected. -/
theorem C1_ml_acceptance_rule (home_rating away_rating : ℝ)
    (selection : String) (odds_value : ℝ) :
    ((analyze_ml_bet_elo home_rating away_rating selection odds_value).accept ↔
      100 * (selectedSideProb home_rating away_rating selection * (odds_value - 1) -
          (1 - selectedSideProb home_rating away_rating selection)) ≥ MIN_ROI_ML ∧
        selectedSideProb home_rating away_rating selection - 1 / odds_value ≥
          claimRequiredEdge home_rating away_rating) ∧
    ((analyze_ml_bet_elo home_rating away_rating selection odds_value).roi = MIN_ROI_ML →
      (analyze_ml_bet_elo home_rating away_rating selection odds_value).edge ≥
        (analyze_ml_bet_elo home_rating away_rating selection odds_value).required_edge →
      (analyze_ml_bet_elo home_rating away_rating selection odds_value).accept) ∧
    ((analyze_ml_bet_elo home_rating away_rating selection odds_value).roi < MIN_ROI_ML →
      ¬ (analyze_ml_bet_elo home_rating away_rating selection odds_value).accept) := by
  have haccept : (analyze_ml_bet_elo home_rating away_rating selection odds_value).accept ↔
      (analyze_ml_bet_elo home_rating away_rating selection odds_value).roi ≥ MIN_ROI_ML ∧
      (analyze_ml_bet_elo home_rating away_rating selection odds_value).edge ≥
        (analyze_ml_bet_elo home_rating away_rating selection odds_value).required_edge :=
    Iff.rfl
  have hprob : (analyze_ml_bet_elo home_rating away_rating selection odds_value).est_prob =
      selectedSideProb home_rating away_rating selection := by
    unfold analyze_ml_bet_elo selectedSideProb
    by_cases hsel : selection = "Home"
    · simp [hsel]
    · simp only [hsel, if_false]
      have := expected_score_add home_rating away_rating
      linarith
  have hroi : (analyze_ml_bet_elo home_rating away_rating selection odds_value).roi =
      ((analyze_ml_bet_elo home_rating away_rating selection odds_value).est_prob *
          (odds_value - 1) -
        (1 - (analyze_ml_bet_elo home_rating away_rating selection odds_value).est_prob)) * 100 :=
    rfl
  have hedge : (analyze_ml_bet_elo home_rating away_rating selection odds_value).edge =
      (analyze_ml_bet_elo home_rating away_rating selection odds_value).est_prob -
        1 / odds_value :=
    rfl
  have hreq : (analyze_ml_bet_elo home_rating away_rating selection odds_value).required_edge =
      claimRequiredEdge home_rating away_rating :=
    rfl
  refine ⟨?_, ?_, ?_⟩
  · rw [haccept, hroi, hedge, hreq, hprob]
    constructor
    · rintro ⟨hr1, hr2⟩
      exact ⟨by linarith, hr2⟩
    · rintro ⟨hr1, hr2⟩
      exact ⟨by linarith, hr2⟩
  · intro h1 h2
    exact haccept.mpr ⟨h1 ▸ le_rfl, h2⟩
  · intro hlt hacc
    exact absurd (haccept.mp hacc).1 (not_le.mpr hlt)

/-- Witness for C1 at equal ratings, selection Home, odds 2.5. -/
theorem C1_ml_acceptance_rule_witness :
    ((analyze_ml_bet_elo 1500 1500 "Home" 2.5).accept ↔
      100 * (selectedSideProb 1500 1500 "Home" * (2.5 - 1) -
          (1 - selectedSideProb 1500 1500 "Home")) ≥ MIN_ROI_ML ∧
        selectedSideProb 1500 1500 "Home" - 1 / 2.5 ≥ claimRequiredEdge 1500 1500) ∧
    ((analyze_ml_bet_elo 1500 1500 "Home" 2.5).roi = MIN_ROI_ML →
      (analyze_ml_bet_elo 1500 1500 "Home" 2.5).edge ≥
        (analyze_ml_bet_elo 1500 1500 "Home" 2.5).required_edge →
      (analyze_ml_bet_elo 1500 1500 "Home" 2.5).accept) ∧
    ((analyze_ml_bet_elo 1500 1500 "Home" 2.5).roi < MIN_ROI_ML →
      ¬ (analyze_ml_bet_elo 1500 1500 "Home" 2.5).accept) :=
  C1_ml_acceptance_rule 1500 1500 "Home" 2.5

end DbGetBetResults

/-! ### Claim theorems for the win-rate valuation path (C10) -/

namespace DbGetBets

open TM

/-- `calculate_player_stats` reports exactly the number of rows it was
given. -/
theorem calculate_player_stats_total (scoresDb : List SetScore)
    (player_name : String) (df : List ResultEvent) :
    (calculate_player_stats scoresDb player_name df).total_matches = df.length := by
  unfold calculate_player_stats
  by_cases h : df.isEmpty
  · rw [if_pos h]
    simp [List.isEmpty_iff.mp h]
  · rw [if_neg h]

/-- `get_player_last_10_matches` returns at most 10 rows (`LIMIT 10`). -/
theorem get_player_last_10_matches_length (resultsDb : List ResultEvent)
    (player_name : String) :
    (get_player_last_10_matches resultsDb player_name).length ≤ 10 := by
  unfold get_player_last_10_matches
  exact List.length_take_le 10 _

/-- C10: the win-rate processor of `db_get_bets.py` never emits a bet:
its data-sufficiency filter requires at least 15 matches per player while
`get_player_last_10_matches` returns at most 10 rows, so
`analyze_bet_value` returns the empty list on every input. -/
theorem C10_analyze_bet_value_vacuous (resultsDb : List ResultEvent)
    (scoresDb : List SetScore) (mtch : UpcomingMatch)
    (odds_df : List OddsQuote) :
    analyze_bet_value resultsDb scoresDb mtch odds_df = [] := by
  unfold analyze_bet_value
  have hhome : (calculate_player_stats scoresDb mtch.home_team
      (get_player_last_10_matches resultsDb mtch.home_team)).total_matches < 15 := by
    rw [calculate_player_stats_total]
    exact lt_of_le_of_lt (get_player_last_10_matches_length _ _) (by norm_num)
  simp [hhome]

end DbGetBets

/-! ### Claim theorems for the deduplication engine (C4) -/

namespace Monitor

open TM

/-- C4 (amended): `is_duplicate_event` implements exactly the claimed
decision rule amended with the league-id guard: duplicate iff the stripped
team names are non-empty, the league id is present and non-zero, the time
is non-zero, the candidate id is not cached, and some stored fixture in
the same league has the same (home, away) names, a time within the
threshold window, and a different id. -/
theorem C4_dedup_decision_rule (db : EventStore) (event : RawEvent) (t : Int) :
    is_duplicate_event db event t = amendedDuplicateRule db event t := by
  unfold is_duplicate_event amendedDuplicateRule
  by_cases hg : (pyStrip event.home_name == "" || pyStrip event.away_name == "" ||
      leagueFalsy event.league_id || event.time == 0) = true
  · rw [if_pos hg, if_pos hg]
  · rw [if_neg hg, if_neg hg]
    by_cases hc : db.cache_existing_events.contains event.id
    · rw [if_pos hc, hc]
      simp
    · rw [if_neg hc]
      have hc' : db.cache_existing_events.contains event.id = false := by
        simpa using hc
      rw [hc']
      simp only [Bool.not_false, Bool.true_and]
      obtain ⟨n, hn⟩ : ∃ n, event.league_id = some n := by
        cases hl : event.league_id with
        | none =>
          exfalso
          apply hg
          simp [leagueFalsy, hl]
        | some n => exact ⟨n, rfl⟩
      apply congrArg
      funext r
      rw [hn]
      cases r.league_id with
      | none => simp [sqlEq]
      | some m => simp [sqlEq]

/-- Counterexample for C4 as frozen: with a zero league id on both the
candidate and a stored fixture, the claimed rule flags a duplicate but
`is_duplicate_event` returns `False` (it treats a falsy league id as
insufficient signal). -/
theorem C4_dedup_counterexample :
    is_duplicate_event
        ⟨[⟨"E1", 1000, some 0, "A", "B"⟩], ["E1"]⟩
        ⟨"E2", "A", "B", some 0, 1000⟩ 6 = false ∧
      claimDuplicateRule
        ⟨[⟨"E1", 1000, some 0, "A", "B"⟩], ["E1"]⟩
        ⟨"E2", "A", "B", some 0, 1000⟩ 6 = true := by
  constructor
  · decide
  · decide

end Monitor

/-! ### Claim theorems for the fetch client (C5) -/

namespace Monitor

open TM

/-- The retry loop returns the first non-`success=0` payload after `k`
caught failures, having slept the exponential backoff schedule. -/
theorem requestLoop_returns (responses : Nat → ApiResp) (d : ℚ) :
    ∀ (k remaining attempt : Nat) (sleeps : List ℚ) (p : Payload),
      k < remaining →
      (∀ i, i < k → isCaughtFailure (responses (attempt + i)) = true) →
      responses (attempt + k) = .payload p →
      (p.success == some 0) = false →
      requestLoop responses d remaining attempt sleeps =
        (.returned p, sleeps ++ (List.range k).map (fun i => d * 2 ^ (attempt + i))) := by
  intro k
  induction k with
  | zero =>
    intro remaining attempt sleeps p hlt hfail hp hps
    match remaining, hlt with
    | r + 1, _ =>
      rw [Nat.add_zero] at hp
      unfold requestLoop
      rw [hp]
      simp [hps]
  | succ k ih =>
    intro remaining attempt sleeps p hlt hfail hp hps
    match remaining, hlt with
    | r + 1, hlt =>
      have hr : k < r := Nat.lt_of_succ_lt_succ hlt
      have hr0 : r ≠ 0 := Nat.pos_iff_ne_zero.mp (Nat.lt_of_le_of_lt (Nat.zero_le k) hr)
      have hfail0 : isCaughtFailure (responses attempt) = true := by
        have := hfail 0 (Nat.succ_pos k)
        simpa using this
      have hfail' : ∀ i, i < k → isCaughtFailure (responses (attempt + 1 + i)) = true := by
        intro i hi
        have := hfail (i + 1) (Nat.succ_lt_succ hi)
        rwa [show attempt + (i + 1) = attempt + 1 + i by omega] at this
      have hp' : responses (attempt + 1 + k) = .payload p := by
        rwa [show attempt + 1 + k = attempt + (k + 1) by omega]
      have happ : sleeps ++ (List.range (k + 1)).map (fun i => d * 2 ^ (attempt + i)) =
          (sleeps ++ [d * 2 ^ attempt]) ++
            (List.range k).map (fun i => d * 2 ^ (attempt + 1 + i)) := by
        rw [List.range_succ_eq_map, List.map_cons, List.map_map, List.append_assoc]
        have hfun : ((fun i => d * 2 ^ (attempt + i)) ∘ Nat.succ) =
            (fun i => d * 2 ^ (attempt + 1 + i)) := by
          funext i
          show d * 2 ^ (attempt + (i + 1)) = d * 2 ^ (attempt + 1 + i)
          rw [show attempt + (i + 1) = attempt + 1 + i from by omega]
        rw [hfun]
        rfl
      cases hresp : responses attempt with
      | otherError =>
        rw [hresp] at hfail0
        exact absurd hfail0 (by simp [isCaughtFailure])
      | httpError =>
        unfold requestLoop
        rw [hresp, if_neg hr0, ih r (attempt + 1) _ p hr hfail' hp' hps, happ]
      | payload q =>
        have hq : (q.success == some 0) = true := by
          rw [hresp] at hfail0
          simpa [isCaughtFailure] using hfail0
        unfold requestLoop
        rw [hresp]
        simp only [hq, if_true]
        rw [if_neg hr0, ih r (attempt + 1) _ p hr hfail' hp' hps, happ]

/-- C5 (amended): `_make_request` retries every caught failure — HTTP
errors, rate-limited `success=0` responses, and every other `success=0`
response alike — sleeping `retry_delay * 2 ** attempt` before each retry,
and returns the first successful payload inside the attempt cap; only an
unexpected exception (e.g. an undecodable body) propagates immediately
without retry or backoff. -/
theorem C5_retry_policy (responses : Nat → ApiResp) (cap : Nat) (d : ℚ) :
    (∀ (k : Nat) (p : Payload), k < cap →
      (∀ i, i < k → isCaughtFailure (responses i) = true) →
      responses k = .payload p → (p.success == some 0) = false →
      make_request responses cap d =
        (.returned p, (List.range k).map (fun i => d * 2 ^ i))) ∧
    (0 < cap → responses 0 = .otherError →
      make_request responses cap d = (.raised "Unexpected error", [])) := by
  constructor
  · intro k p hk hfail hp hps
    unfold make_request
    have := requestLoop_returns responses d k cap 0 [] p hk
      (by simpa using hfail) (by simpa using hp) hps
    simpa using this
  · intro hcap h0
    unfold make_request
    match cap, hcap with
    | c + 1, _ =>
      unfold requestLoop
      rw [h0]

/-- Witness for C5 (amended): one non-rate-limit `success=0` failure, then
a success on the second attempt within a cap of 3. -/
theorem C5_retry_policy_witness :
    make_request
        (fun attempt => if attempt = 0 then
          ApiResp.payload ⟨some 0, some "PARAM_INVALID", 0⟩
        else ApiResp.payload ⟨some 1, none, 7⟩) 3 2 =
      (.returned ⟨some 1, none, 7⟩,
        (List.range 1).map (fun i => (2 : ℚ) * 2 ^ i)) :=
  (C5_retry_policy _ 3 2).1 1 ⟨some 1, none, 7⟩ (by decide)
    (fun i hi => by interval_cases i; decide) rfl (by decide)

/-- Counterexample for C5 as frozen: a `success=0` response whose error
text does not indicate rate-limiting does NOT propagate immediately — the
call sleeps one backoff delay, retries, and returns the next payload. -/
theorem C5_nonretryable_counterexample :
    (make_request
        (fun attempt => if attempt = 0 then
          ApiResp.payload ⟨some 0, some "PARAM_INVALID", 0⟩
        else ApiResp.payload ⟨some 1, none, 7⟩) 3 2).1 =
      .returned ⟨some 1, none, 7⟩ ∧
    (make_request
        (fun attempt => if attempt = 0 then
          ApiResp.payload ⟨some 0, some "PARAM_INVALID", 0⟩
        else ApiResp.payload ⟨some 1, none, 7⟩) 3 2).2.length = 1 ∧
    isRateLimitMsg (some "PARAM_INVALID") = false := by
  refine ⟨by decide, rfl, by decide⟩

end Monitor

/-! ### Claim theorems for the odds extractor (C7, C8) -/

namespace Monitor

open TM

/-- Inserting never removes rows. -/
theorem subset_insertOrIgnoreQuote (t : List QuoteRow) (q x : QuoteRow)
    (hx : x ∈ t) : x ∈ (insertOrIgnoreQuote t q).1 := by
  unfold insertOrIgnoreQuote
  split_ifs
  · exact hx
  · exact List.mem_append_left _ hx

/-- A row of the inserted table is an old row or the inserted row. -/
theorem mem_insertOrIgnoreQuote {t : List QuoteRow} {q x : QuoteRow}
    (hx : x ∈ (insertOrIgnoreQuote t q).1) : x ∈ t ∨ x = q := by
  unfold insertOrIgnoreQuote at hx
  split_ifs at hx
  · exact Or.inl hx
  · rcases List.mem_append.mp hx with h | h
    · exact Or.inl h
    · exact Or.inr (List.mem_singleton.mp h)

theorem subset_insFold (rows : List QuoteRow) :
    ∀ (t : List QuoteRow) (c : Nat) (x : QuoteRow), x ∈ t →
      x ∈ (rows.foldl insStep (t, c)).1 := by
  induction rows with
  | nil => intro t c x hx; exact hx
  | cons q rows ih =>
    intro t c x hx
    rw [List.foldl_cons]
    simp only [insStep]
    exact ih _ _ x (subset_insertOrIgnoreQuote t q x hx)

theorem mem_insFold (rows : List QuoteRow) :
    ∀ (t : List QuoteRow) (c : Nat) (x : QuoteRow),
      x ∈ (rows.foldl insStep (t, c)).1 → x ∈ t ∨ x ∈ rows := by
  induction rows with
  | nil => intro t c x hx; exact Or.inl hx
  | cons q rows ih =>
    intro t c x hx
    rw [List.foldl_cons] at hx
    simp only [insStep] at hx
    rcases ih _ _ x hx with h | h
    · rcases mem_insertOrIgnoreQuote h with h' | h'
      · exact Or.inl h'
      · exact Or.inr (by rw [h']; exact List.mem_cons_self q rows)
    · exact Or.inr (List.mem_cons_of_mem q h)

/-- Frozen-at-first-write, single insert: if the key is already present,
inserting any row leaves the rows of that key untouched. -/
theorem filter_key_insertOrIgnoreQuote (t : List QuoteRow) (q : QuoteRow)
    (key : String × String × String × String)
    (hkey : ∃ x ∈ t, quoteKey x = key) :
    (insertOrIgnoreQuote t q).1.filter (fun x => quoteKey x == key) =
      t.filter (fun x => quoteKey x == key) := by
  unfold insertOrIgnoreQuote
  split_ifs with hany
  · rfl
  · have hq : quoteKey q ≠ key := by
      intro hqk
      obtain ⟨x, hxt, hxk⟩ := hkey
      exact hany (List.any_eq_true.mpr ⟨x, hxt, beq_iff_eq.mpr (by rw [hxk, hqk])⟩)
    rw [List.filter_append]
    have hone : [q].filter (fun x => quoteKey x == key) = [] := by
      simp [hq]
    rw [hone, List.append_nil]

theorem filter_key_insFold (rows : List QuoteRow) :
    ∀ (t : List QuoteRow) (c : Nat) (key : String × String × String × String),
      (∃ x ∈ t, quoteKey x = key) →
      ((rows.foldl insStep (t, c)).1).filter (fun x => quoteKey x == key) =
        t.filter (fun x => quoteKey x == key) := by
  induction rows with
  | nil => intro t c key _; rfl
  | cons q rows ih =>
    intro t c key hkey
    rw [List.foldl_cons]
    simp only [insStep]
    obtain ⟨x, hxt, hxk⟩ := hkey
    have hkey' : ∃ x ∈ (insertOrIgnoreQuote t q).1, quoteKey x = key :=
      ⟨x, subset_insertOrIgnoreQuote t q x hxt, hxk⟩
    rw [ih _ _ key hkey', filter_key_insertOrIgnoreQuote t q key ⟨x, hxt, hxk⟩]

theorem key_present_insertOrIgnoreQuote (t : List QuoteRow) (q : QuoteRow) :
    ∃ x ∈ (insertOrIgnoreQuote t q).1, quoteKey x = quoteKey q := by
  unfold insertOrIgnoreQuote
  split_ifs with hany
  · obtain ⟨x, hxt, hx⟩ := List.any_eq_true.mp hany
    exact ⟨x, hxt, beq_iff_eq.mp hx⟩
  · exact ⟨q, List.mem_append_right _ (List.mem_singleton_self q), rfl⟩

theorem keys_present_insFold (rows : List QuoteRow) :
    ∀ (t : List QuoteRow) (c : Nat) (q : QuoteRow), q ∈ rows →
      ∃ x ∈ (rows.foldl insStep (t, c)).1, quoteKey x = quoteKey q := by
  induction rows with
  | nil =>
    intro t c q hq
    exact absurd hq (List.not_mem_nil q)
  | cons q' rows ih =>
    intro t c q hq
    rw [List.foldl_cons]
    simp only [insStep]
    rcases List.mem_cons.mp hq with h | h
    · subst h
      obtain ⟨x, hxm, hxk⟩ := key_present_insertOrIgnoreQuote t q
      exact ⟨x, subset_insFold rows _ _ x hxm, hxk⟩
    · exact ih _ _ q h

theorem insFold_noop (rows : List QuoteRow) :
    ∀ (t : List QuoteRow) (c : Nat),
      (∀ q ∈ rows, ∃ x ∈ t, quoteKey x = quoteKey q) →
      rows.foldl insStep (t, c) = (t, c) := by
  induction rows with
  | nil => intro t c _; rfl
  | cons q rows ih =>
    intro t c hall
    rw [List.foldl_cons]
    have hq : insertOrIgnoreQuote t q = (t, 0) := by
      obtain ⟨x, hxt, hxk⟩ := hall q (List.mem_cons_self q rows)
      have hbeq : (quoteKey x == quoteKey q) = true := beq_iff_eq.mpr hxk
      have hany : (t.any fun p => quoteKey p == quoteKey q) = true :=
        List.any_eq_true.mpr ⟨x, hxt, hbeq⟩
      unfold insertOrIgnoreQuote
      rw [if_pos hany]
    have hstep : insStep (t, c) q = (t, c) := by
      simp [insStep, hq]
    rw [hstep]
    exact ih t c (fun q' hq' => hall q' (List.mem_cons_of_mem q hq'))

/-- The shape of every row the classification chain can produce. -/
theorem classifyOutcome_shape (e : String) (now : ℚ) (o : Outcome) (r : QuoteRow)
    (h : classifyOutcome e now o = some r) :
    (r.market_type = "To Win" ∧ r.handicap_value = "" ∧
      (r.selection = "Home" ∨ r.selection = "Away")) ∨
    (r.market_type = "Total" ∧ r.handicap_value ≠ "" ∧
      (r.selection = "Over " ++ r.handicap_value ∨
        r.selection = "Under " ++ r.handicap_value)) ∨
    (r.market_type = "Handicap" ∧ r.handicap_value ≠ "" ∧
      (r.selection = "Home" ∨ r.selection = "Away")) := by
  unfold classifyOutcome at h
  by_cases hc1 : (o.name == "To Win" && (o.header == "1" || o.header == "2")) = true
  · rw [if_pos hc1] at h
    injection h with h
    subst h
    refine Or.inl ⟨rfl, rfl, ?_⟩
    by_cases hh : (o.header == "1") = true <;> simp [hh]
  · rw [if_neg hc1] at h
    by_cases hc2 : (o.name == "Total" && (o.header == "1" || o.header == "2") &&
        o.handicap != "") = true
    · rw [if_pos hc2] at h
      injection h with h
      subst h
      have hhand : o.handicap ≠ "" := by
        simp only [Bool.and_eq_true, bne_iff_ne] at hc2
        exact hc2.2
      refine Or.inr (Or.inl ⟨rfl, hhand, ?_⟩)
      by_cases hh : (o.header == "1") = true
      · exact Or.inl (by simp only [hh, if_true]; rfl)
      · exact Or.inr (by simp only [hh, if_false]; rfl)
    · rw [if_neg hc2] at h
      by_cases hc3 : (o.name == "Handicap" && (o.header == "1" || o.header == "2") &&
          o.handicap != "") = true
      · rw [if_pos hc3] at h
        injection h with h
        subst h
        have hhand : o.handicap ≠ "" := by
          simp only [Bool.and_eq_true, bne_iff_ne] at hc3
          exact hc3.2
        refine Or.inr (Or.inr ⟨rfl, hhand, ?_⟩)
        by_cases hh : (o.header == "1") = true <;> simp [hh]
      · rw [if_neg hc3] at h
        exact absurd h (by simp)

/-- Membership after a batch save: every stored row is an old row or the
image of some classified outcome. -/
theorem save_batch_mem (now : ℚ) (batch : List (String × OddsData)) :
    ∀ (tables : OddsTables) (c : Nat) (r : QuoteRow),
      (r ∈ ((batch.foldl (saveOddsStep now) (tables, c)).1).match_odds →
        r ∈ tables.match_odds ∨ ∃ e o, classifyOutcome e now o = some r) ∧
      (r ∈ ((batch.foldl (saveOddsStep now) (tables, c)).1).first_game_odds →
        r ∈ tables.first_game_odds ∨ ∃ e o, classifyOutcome e now o = some r) := by
  induction batch with
  | nil => intro tables c r; exact ⟨fun h => Or.inl h, fun h => Or.inl h⟩
  | cons eo batch ih =>
    intro tables c r
    constructor
    · intro h
      rw [List.foldl_cons] at h
      simp only [saveOddsStep, insertOrIgnoreMany] at h
      rcases (ih _ _ r).1 h with h' | h'
      · rcases mem_insFold _ _ _ r h' with h'' | h''
        · exact Or.inl h''
        · obtain ⟨o, _, hco⟩ := List.mem_filterMap.mp h''
          exact Or.inr ⟨eo.1, o, hco⟩
      · exact Or.inr h'
    · intro h
      rw [List.foldl_cons] at h
      simp only [saveOddsStep, insertOrIgnoreMany] at h
      rcases (ih _ _ r).2 h with h' | h'
      · rcases mem_insFold _ _ _ r h' with h'' | h''
        · exact Or.inl h''
        · obtain ⟨o, _, hco⟩ := List.mem_filterMap.mp h''
          exact Or.inr ⟨eo.1, o, hco⟩
      · exact Or.inr h'

end Monitor

namespace Monitor

open TM

/-- Old rows survive a batch save (both tables). -/
theorem save_batch_subset (now : ℚ) (batch : List (String × OddsData)) :
    ∀ (tables : OddsTables) (c : Nat) (x : QuoteRow),
      (x ∈ tables.match_odds →
        x ∈ ((batch.foldl (saveOddsStep now) (tables, c)).1).match_odds) ∧
      (x ∈ tables.first_game_odds →
        x ∈ ((batch.foldl (saveOddsStep now) (tables, c)).1).first_game_odds) := by
  induction batch with
  | nil => intro tables c x; exact ⟨fun h => h, fun h => h⟩
  | cons eo batch ih =>
    intro tables c x
    constructor
    · intro h
      rw [List.foldl_cons]
      simp only [saveOddsStep, insertOrIgnoreMany]
      exact (ih _ _ x).1 (subset_insFold _ _ _ x h)
    · intro h
      rw [List.foldl_cons]
      simp only [saveOddsStep, insertOrIgnoreMany]
      exact (ih _ _ x).2 (subset_insFold _ _ _ x h)

/-- Frozen-at-first-write across a whole batch save: the stored rows of an
already-present key are untouched. -/
theorem save_batch_filter_key (now : ℚ) (batch : List (String × OddsData)) :
    ∀ (tables : OddsTables) (c : Nat) (key : String × String × String × String),
      ((∃ x ∈ tables.match_odds, quoteKey x = key) →
        (((batch.foldl (saveOddsStep now) (tables, c)).1).match_odds.filter
            (fun x => quoteKey x == key)) =
          tables.match_odds.filter (fun x => quoteKey x == key)) ∧
      ((∃ x ∈ tables.first_game_odds, quoteKey x = key) →
        (((batch.foldl (saveOddsStep now) (tables, c)).1).first_game_odds.filter
            (fun x => quoteKey x == key)) =
          tables.first_game_odds.filter (fun x => quoteKey x == key)) := by
  induction batch with
  | nil => intro tables c key; exact ⟨fun _ => rfl, fun _ => rfl⟩
  | cons eo batch ih =>
    intro tables c key
    constructor
    · rintro ⟨x, hxt, hxk⟩
      rw [List.foldl_cons]
      simp only [saveOddsStep, insertOrIgnoreMany]
      have hsub : x ∈ ((eo.2.match_lines.filterMap
          (classifyOutcome eo.1 now)).foldl insStep (tables.match_odds, 0)).1 :=
        subset_insFold _ _ _ x hxt
      rw [(ih _ _ key).1 ⟨x, hsub, hxk⟩]
      exact filter_key_insFold _ _ _ key ⟨x, hxt, hxk⟩
    · rintro ⟨x, hxt, hxk⟩
      rw [List.foldl_cons]
      simp only [saveOddsStep, insertOrIgnoreMany]
      have hsub : x ∈ ((eo.2.first_game.filterMap
          (classifyOutcome eo.1 now)).foldl insStep (tables.first_game_odds, 0)).1 :=
        subset_insFold _ _ _ x hxt
      rw [(ih _ _ key).2 ⟨x, hsub, hxk⟩]
      exact filter_key_insFold _ _ _ key ⟨x, hxt, hxk⟩

/-- The classification chain embeds the timestamp only in `updated_at`, so
the produced key does not depend on it. -/
theorem classifyOutcome_key_now (e : String) (o : Outcome) (now now' : ℚ) :
    (classifyOutcome e now o).map quoteKey = (classifyOutcome e now' o).map quoteKey := by
  unfold classifyOutcome quoteKey
  split_ifs <;> rfl

/-- After a batch save, every key any event of the batch can classify (at
any timestamp) is present in the respective table. -/
theorem save_batch_keys_present (now : ℚ) (batch : List (String × OddsData)) :
    ∀ (tables : OddsTables) (c : Nat) (eo : String × OddsData), eo ∈ batch →
      ∀ (now' : ℚ) (r' : QuoteRow),
        ((r' ∈ eo.2.match_lines.filterMap (classifyOutcome eo.1 now') →
          ∃ x ∈ ((batch.foldl (saveOddsStep now) (tables, c)).1).match_odds,
            quoteKey x = quoteKey r') ∧
        (r' ∈ eo.2.first_game.filterMap (classifyOutcome eo.1 now') →
          ∃ x ∈ ((batch.foldl (saveOddsStep now) (tables, c)).1).first_game_odds,
            quoteKey x = quoteKey r')) := by
  induction batch with
  | nil =>
    intro tables c eo heo
    exact absurd heo (List.not_mem_nil eo)
  | cons eo0 batch ih =>
    intro tables c eo heo now' r'
    rcases List.mem_cons.mp heo with h | h
    · subst h
      constructor
      · intro hr'
        obtain ⟨o, ho, hco'⟩ := List.mem_filterMap.mp hr'
        have hkey := classifyOutcome_key_now eo.1 o now now'
        rw [hco'] at hkey
        cases hco : classifyOutcome eo.1 now o with
        | none => rw [hco] at hkey; exact absurd hkey (by simp)
        | some r =>
          rw [hco] at hkey
          have hkr : quoteKey r = quoteKey r' := by
            simpa using hkey
          have hrmem : r ∈ eo.2.match_lines.filterMap (classifyOutcome eo.1 now) :=
            List.mem_filterMap.mpr ⟨o, ho, hco⟩
          rw [List.foldl_cons]
          simp only [saveOddsStep, insertOrIgnoreMany]
          obtain ⟨x, hxm, hxk⟩ := keys_present_insFold _ _ _ r hrmem
          exact ⟨x, (save_batch_subset now batch _ _ x).1 hxm, hxk.trans hkr⟩
      · intro hr'
        obtain ⟨o, ho, hco'⟩ := List.mem_filterMap.mp hr'
        have hkey := classifyOutcome_key_now eo.1 o now now'
        rw [hco'] at hkey
        cases hco : classifyOutcome eo.1 now o with
        | none => rw [hco] at hkey; exact absurd hkey (by simp)
        | some r =>
          rw [hco] at hkey
          have hkr : quoteKey r = quoteKey r' := by
            simpa using hkey
          have hrmem : r ∈ eo.2.first_game.filterMap (classifyOutcome eo.1 now) :=
            List.mem_filterMap.mpr ⟨o, ho, hco⟩
          rw [List.foldl_cons]
          simp only [saveOddsStep, insertOrIgnoreMany]
          obtain ⟨x, hxm, hxk⟩ := keys_present_insFold _ _ _ r hrmem
          exact ⟨x, (save_batch_subset now batch _ _ x).2 hxm, hxk.trans hkr⟩
    · rw [List.foldl_cons]
      exact ih _ _ eo h now' r'

/-- A batch save over tables that already hold every classifiable key is a
complete no-op with zero rowcount. -/
theorem save_batch_noop (now' : ℚ) (batch : List (String × OddsData)) :
    ∀ (T : OddsTables) (c : Nat),
      (∀ eo ∈ batch, ∀ r' : QuoteRow,
        (r' ∈ eo.2.match_lines.filterMap (classifyOutcome eo.1 now') →
          ∃ x ∈ T.match_odds, quoteKey x = quoteKey r') ∧
        (r' ∈ eo.2.first_game.filterMap (classifyOutcome eo.1 now') →
          ∃ x ∈ T.first_game_odds, quoteKey x = quoteKey r')) →
      batch.foldl (saveOddsStep now') (T, c) = (T, c) := by
  induction batch with
  | nil => intro T c _; rfl
  | cons eo batch ih =>
    intro T c hall
    rw [List.foldl_cons]
    have h1 : (eo.2.match_lines.filterMap (classifyOutcome eo.1 now')).foldl
        insStep (T.match_odds, 0) = (T.match_odds, 0) :=
      insFold_noop _ _ _ (fun q hq => (hall eo (List.mem_cons_self eo batch) q).1 hq)
    have h2 : (eo.2.first_game.filterMap (classifyOutcome eo.1 now')).foldl
        insStep (T.first_game_odds, 0) = (T.first_game_odds, 0) :=
      insFold_noop _ _ _ (fun q hq => (hall eo (List.mem_cons_self eo batch) q).2 hq)
    have hstep : saveOddsStep now' (T, c) eo = (T, c) := by
      simp only [saveOddsStep, insertOrIgnoreMany, h1, h2]
      rfl
    rw [hstep]
    exact ih T c (fun eo' heo' => hall eo' (List.mem_cons_of_mem eo heo'))

end Monitor

namespace Monitor

open TM

/-- C7 (amended): every quote row stored by `save_odds_batch` that was not
already in the tables belongs to one of THREE market families — "To Win"
(selection Home/Away, empty handicap), "Total" (selection "Over h"/
"Under h", non-empty handicap h), or "Handicap" (selection Home/Away,
non-empty handicap); outcomes of any other market family produce no
stored record. -/
theorem C7_market_families (tables : OddsTables)
    (batch : List (String × OddsData)) (now : ℚ) (r : QuoteRow)
    (hr : r ∈ (save_odds_batch tables batch now).1.match_odds ∨
      r ∈ (save_odds_batch tables batch now).1.first_game_odds) :
    (r ∈ tables.match_odds ∨ r ∈ tables.first_game_odds) ∨
    (r.market_type = "To Win" ∧ r.handicap_value = "" ∧
      (r.selection = "Home" ∨ r.selection = "Away")) ∨
    (r.market_type = "Total" ∧ r.handicap_value ≠ "" ∧
      (r.selection = "Over " ++ r.handicap_value ∨
        r.selection = "Under " ++ r.handicap_value)) ∨
    (r.market_type = "Handicap" ∧ r.handicap_value ≠ "" ∧
      (r.selection = "Home" ∨ r.selection = "Away")) := by
  unfold save_odds_batch at hr
  rcases hr with h | h
  · rcases (save_batch_mem now batch tables 0 r).1 h with h' | ⟨e, o, hco⟩
    · exact Or.inl (Or.inl h')
    · exact Or.inr (classifyOutcome_shape e now o r hco)
  · rcases (save_batch_mem now batch tables 0 r).2 h with h' | ⟨e, o, hco⟩
    · exact Or.inl (Or.inr h')
    · exact Or.inr (classifyOutcome_shape e now o r hco)

/-- Witness for C7 (amended), at a batch holding one Handicap outcome. -/
theorem C7_market_families_witness :
    ((⟨"E1", "Handicap", "Home", coerceOdds none, "-1.5", 0⟩ : QuoteRow) ∈
        (⟨[], []⟩ : OddsTables).match_odds ∨
      (⟨"E1", "Handicap", "Home", coerceOdds none, "-1.5", 0⟩ : QuoteRow) ∈
        (⟨[], []⟩ : OddsTables).first_game_odds) ∨
    ((⟨"E1", "Handicap", "Home", coerceOdds none, "-1.5", 0⟩ : QuoteRow).market_type = "To Win" ∧
      (⟨"E1", "Handicap", "Home", coerceOdds none, "-1.5", 0⟩ : QuoteRow).handicap_value = "" ∧
      ((⟨"E1", "Handicap", "Home", coerceOdds none, "-1.5", 0⟩ : QuoteRow).selection = "Home" ∨
        (⟨"E1", "Handicap", "Home", coerceOdds none, "-1.5", 0⟩ : QuoteRow).selection = "Away")) ∨
    ((⟨"E1", "Handicap", "Home", coerceOdds none, "-1.5", 0⟩ : QuoteRow).market_type = "Total" ∧
      (⟨"E1", "Handicap", "Home", coerceOdds none, "-1.5", 0⟩ : QuoteRow).handicap_value ≠ "" ∧
      ((⟨"E1", "Handicap", "Home", coerceOdds none, "-1.5", 0⟩ : QuoteRow).selection =
          "Over " ++ (⟨"E1", "Handicap", "Home", coerceOdds none, "-1.5", 0⟩ : QuoteRow).handicap_value ∨
        (⟨"E1", "Handicap", "Home", coerceOdds none, "-1.5", 0⟩ : QuoteRow).selection =
          "Under " ++ (⟨"E1", "Handicap", "Home", coerceOdds none, "-1.5", 0⟩ : QuoteRow).handicap_value)) ∨
    ((⟨"E1", "Handicap", "Home", coerceOdds none, "-1.5", 0⟩ : QuoteRow).market_type = "Handicap" ∧
      (⟨"E1", "Handicap", "Home", coerceOdds none, "-1.5", 0⟩ : QuoteRow).handicap_value ≠ "" ∧
      ((⟨"E1", "Handicap", "Home", coerceOdds none, "-1.5", 0⟩ : QuoteRow).selection = "Home" ∨
        (⟨"E1", "Handicap", "Home", coerceOdds none, "-1.5", 0⟩ : QuoteRow).selection = "Away")) :=
  C7_market_families ⟨[], []⟩ [("E1", ⟨[⟨"Handicap", "1", none, "-1.5"⟩], []⟩)] 0
    ⟨"E1", "Handicap", "Home", coerceOdds none, "-1.5", 0⟩ (Or.inl (by decide))

/-- Counterexample for C7 as frozen: a "Handicap" outcome DOES produce a
stored quote record, so stored quotes are not limited to the "To Win" and
"Total" market families. -/
theorem C7_handicap_counterexample :
    ((save_odds_batch ⟨[], []⟩
        [("E1", ⟨[⟨"Handicap", "1", none, "-1.5"⟩], []⟩)] 0).1.match_odds.map
      (fun r => (r.event_id, r.market_type, r.selection, r.handicap_value))) =
      [("E1", "Handicap", "Home", "-1.5")] ∧
    ("Handicap" : String) ≠ "To Win" ∧ ("Handicap" : String) ≠ "Total" := by
  exact ⟨rfl, by decide, by decide⟩

/-- C8: quote rows are frozen at first write — once a row exists for a
`(event id, market, selection, handicap)` key, a batch save leaves the
stored rows of that key (hence the stored price) unchanged — and a batch
save is idempotent: replaying the same batch (at any later timestamp)
changes nothing and reports zero new rows. -/
theorem C8_quotes_frozen_idempotent (tables : OddsTables)
    (batch : List (String × OddsData)) (now : ℚ) :
    (∀ key : String × String × String × String,
      (∃ x ∈ tables.match_odds, quoteKey x = key) →
      ((save_odds_batch tables batch now).1.match_odds.filter
          (fun x => quoteKey x == key)) =
        tables.match_odds.filter (fun x => quoteKey x == key)) ∧
    (∀ key : String × String × String × String,
      (∃ x ∈ tables.first_game_odds, quoteKey x = key) →
      ((save_odds_batch tables batch now).1.first_game_odds.filter
          (fun x => quoteKey x == key)) =
        tables.first_game_odds.filter (fun x => quoteKey x == key)) ∧
    (∀ now' : ℚ, save_odds_batch (save_odds_batch tables batch now).1 batch now' =
      ((save_odds_batch tables batch now).1, 0)) := by
  refine ⟨?_, ?_, ?_⟩
  · intro key hkey
    exact (save_batch_filter_key now batch tables 0 key).1 hkey
  · intro key hkey
    exact (save_batch_filter_key now batch tables 0 key).2 hkey
  · intro now'
    unfold save_odds_batch
    apply save_batch_noop
    intro eo heo r'
    exact ⟨fun hr' => (save_batch_keys_present now batch tables 0 eo heo now' r').1 hr',
      fun hr' => (save_batch_keys_present now batch tables 0 eo heo now' r').2 hr'⟩

/-- Witness for C8: a stored "To Win" Home quote for event E1 at price 2
stays untouched when a later quote for the same key arrives. -/
theorem C8_quotes_frozen_idempotent_witness :
    ((save_odds_batch ⟨[⟨"E1", "To Win", "Home", 2, "", 0⟩], []⟩
        [("E1", ⟨[⟨"To Win", "1", some "9", ""⟩], []⟩)] 1).1.match_odds.filter
      (fun x => quoteKey x == ("E1", "To Win", "Home", ""))) =
      (⟨[⟨"E1", "To Win", "Home", 2, "", 0⟩], []⟩ : OddsTables).match_odds.filter
        (fun x => quoteKey x == ("E1", "To Win", "Home", "")) :=
  (C8_quotes_frozen_idempotent ⟨[⟨"E1", "To Win", "Home", 2, "", 0⟩], []⟩
      [("E1", ⟨[⟨"To Win", "1", some "9", ""⟩], []⟩)] 1).1
    ("E1", "To Win", "Home", "")
    ⟨⟨"E1", "To Win", "Home", 2, "", 0⟩, by decide, rfl⟩

end Monitor

/-! ### Claim theorems for ValueBet persistence (C6) -/

namespace DbGetBets

open TM

/-- Persisting a single accepted candidate passes the grouping and cap
untouched: the inserted list is exactly that bet. -/
theorem top_bets_for_single (b : NewBet)
    (hty : b.bet_type = "To Win" ∨ b.bet_type = "Total") :
    top_bets_for [b] = [b] := by
  have hkeys : keysInOrder [b] = [groupKey b] := by
    simp [keysInOrder, keyStep]
  rcases hty with h | h <;>
    simp [top_bets_for, hkeys, List.filter, h, List.insertionSort,
      List.orderedInsert]

/-- C6 (amended): the upsert is an `INSERT OR REPLACE` — persisting a new
candidate for an existing key deletes the old row entirely (including its
settlement values) and inserts a fresh row whose settlement fields
`result` / `profit` / `actual_result` are `NULL`; rows under
non-conflicting keys survive. -/
theorem C6_upsert_resets_settlement (t : List BetRow) (b : NewBet)
    (hty : b.bet_type = "To Win" ∨ b.bet_type = "Total") :
    (save_top_bets_by_league t [b]).1 =
      t.filter (fun r => !(betConflict r b)) ++ [toBetRow b] ∧
    (toBetRow b).result = none ∧
    (toBetRow b).profit = none ∧
    (toBetRow b).actual_result = none ∧
    (∀ r ∈ t, betConflict r b = false → r ∈ (save_top_bets_by_league t [b]).1) ∧
    (∀ r ∈ t, betConflict r b = true → r.result ≠ none →
      r ∉ (save_top_bets_by_league t [b]).1) := by
  have htop : (save_top_bets_by_league t [b]).1 =
      t.filter (fun r => !(betConflict r b)) ++ [toBetRow b] := by
    show ((top_bets_for [b]).foldl insertOrReplaceBet t) = _
    rw [top_bets_for_single b hty]
    rfl
  refine ⟨htop, rfl, rfl, rfl, ?_, ?_⟩
  · intro r hr hconf
    rw [htop]
    exact List.mem_append_left _ (List.mem_filter.mpr ⟨hr, by simp [hconf]⟩)
  · intro r hr hconf hres hmem
    rw [htop] at hmem
    rcases List.mem_append.mp hmem with h | h
    · have := (List.mem_filter.mp h).2
      rw [hconf] at this
      exact absurd this (by simp)
    · have : r = toBetRow b := List.mem_singleton.mp h
      exact hres (by rw [this]; rfl)

/-- Witness for C6 (amended): a settled Total row is replaced and its
settlement wiped. -/
theorem C6_upsert_resets_settlement_witness :
    (save_top_bets_by_league
        [⟨1, "L", "A", "B", 0, "Total", "Over 74.5", some 75, 2, 2, 25,
          some 1, some 1, some "3-1"⟩]
        [⟨1, "L", "A", "B", 0, "Total", "Over 74.5", some 75, 3, 2, 30⟩]).1 =
      ([⟨1, "L", "A", "B", 0, "Total", "Over 74.5", some 75, 2, 2, 25,
          some 1, some 1, some "3-1"⟩] : List BetRow).filter
        (fun r => !(betConflict r
          ⟨1, "L", "A", "B", 0, "Total", "Over 74.5", some 75, 3, 2, 30⟩)) ++
      [toBetRow ⟨1, "L", "A", "B", 0, "Total", "Over 74.5", some 75, 3, 2, 30⟩] ∧
    (toBetRow (⟨1, "L", "A", "B", 0, "Total", "Over 74.5", some 75, 3, 2, 30⟩ :
      NewBet)).result = none ∧
    (toBetRow (⟨1, "L", "A", "B", 0, "Total", "Over 74.5", some 75, 3, 2, 30⟩ :
      NewBet)).profit = none ∧
    (toBetRow (⟨1, "L", "A", "B", 0, "Total", "Over 74.5", some 75, 3, 2, 30⟩ :
      NewBet)).actual_result = none ∧
    (∀ r ∈ ([⟨1, "L", "A", "B", 0, "Total", "Over 74.5", some 75, 2, 2, 25,
          some 1, some 1, some "3-1"⟩] : List BetRow),
      betConflict r ⟨1, "L", "A", "B", 0, "Total", "Over 74.5", some 75, 3, 2, 30⟩ = false →
      r ∈ (save_top_bets_by_league
        [⟨1, "L", "A", "B", 0, "Total", "Over 74.5", some 75, 2, 2, 25,
          some 1, some 1, some "3-1"⟩]
        [⟨1, "L", "A", "B", 0, "Total", "Over 74.5", some 75, 3, 2, 30⟩]).1) ∧
    (∀ r ∈ ([⟨1, "L", "A", "B", 0, "Total", "Over 74.5", some 75, 2, 2, 25,
          some 1, some 1, some "3-1"⟩] : List BetRow),
      betConflict r ⟨1, "L", "A", "B", 0, "Total", "Over 74.5", some 75, 3, 2, 30⟩ = true →
      r.result ≠ none →
      r ∉ (save_top_bets_by_league
        [⟨1, "L", "A", "B", 0, "Total", "Over 74.5", some 75, 2, 2, 25,
          some 1, some 1, some "3-1"⟩]
        [⟨1, "L", "A", "B", 0, "Total", "Over 74.5", some 75, 3, 2, 30⟩]).1) :=
  C6_upsert_resets_settlement
    [⟨1, "L", "A", "B", 0, "Total", "Over 74.5", some 75, 2, 2, 25,
      some 1, some 1, some "3-1"⟩]
    ⟨1, "L", "A", "B", 0, "Total", "Over 74.5", some 75, 3, 2, 30⟩
    (Or.inr rfl)

/-- Counterexample for C6 as frozen: re-persisting a candidate for a fully
settled key does NOT leave the settlement fields unchanged — the stored
row for the key ends up with `NULL` settlement fields. -/
theorem C6_settlement_not_preserved_counterexample :
    ((save_top_bets_by_league
        [⟨1, "L", "A", "B", 0, "Total", "Over 74.5", some 75, 2, 2, 25,
          some 1, some 1, some "3-1"⟩]
        [⟨1, "L", "A", "B", 0, "Total", "Over 74.5", some 75, 3, 2, 30⟩]).1.map
      (fun r => (r.event_id, r.result, r.profit, r.actual_result))) =
      [(1, none, none, none)] ∧
    (some 1 : Option Int) ≠ none := by
  refine ⟨by decide, by decide⟩

end DbGetBets

/-! ### Claim theorems for the per-league/day cap (C9) -/

namespace DbGetBets

open TM

theorem mem_keysFold_of_mem_acc (bets : List NewBet) :
    ∀ (acc : List (String × Nat)) (x : String × Nat), x ∈ acc →
      x ∈ bets.foldl keyStep acc := by
  induction bets with
  | nil => intro acc x h; exact h
  | cons b bets ih =>
    intro acc x h
    rw [List.foldl_cons]
    apply ih
    unfold keyStep
    split_ifs
    · exact h
    · exact List.mem_append_left _ h

theorem groupKey_mem_keysFold (bets : List NewBet) :
    ∀ (acc : List (String × Nat)) (b : NewBet), b ∈ bets →
      groupKey b ∈ bets.foldl keyStep acc := by
  induction bets with
  | nil => intro acc b h; exact absurd h (List.not_mem_nil b)
  | cons b0 bets ih =>
    intro acc b h
    rw [List.foldl_cons]
    rcases List.mem_cons.mp h with h | h
    · subst h
      apply mem_keysFold_of_mem_acc
      unfold keyStep
      split_ifs with hc
      · simpa using hc
      · exact List.mem_append_right _ (List.mem_singleton_self _)
    · exact ih _ b h

theorem keysFold_nodup (bets : List NewBet) :
    ∀ acc : List (String × Nat), acc.Nodup → (bets.foldl keyStep acc).Nodup := by
  induction bets with
  | nil => intro acc h; exact h
  | cons b bets ih =>
    intro acc h
    rw [List.foldl_cons]
    apply ih
    unfold keyStep
    split_ifs with hc
    · exact h
    · have hnm : groupKey b ∉ acc := by
        intro hm
        exact hc (by simpa using hm)
      simp [List.nodup_append, h, hnm]

/-- Filtering a flat map of per-key chunks reduces to the chunk of the
filtered key, when every other key's chunk is filtered away. -/
theorem filter_flatMap_single (P : NewBet → Bool) (k : String × Nat)
    (f : (String × Nat) → List NewBet) :
    ∀ keys : List (String × Nat), keys.Nodup →
      (∀ k' ∈ keys, k' ≠ k → (f k').filter P = []) →
      ((keys.flatMap f).filter P) = if k ∈ keys then (f k).filter P else [] := by
  intro keys
  induction keys with
  | nil => intro _ _; simp
  | cons k0 keys ih =>
    intro hnd hout
    rw [List.flatMap_cons, List.filter_append]
    by_cases hk0 : k0 = k
    · subst hk0
      have hknotin : k0 ∉ keys := (List.nodup_cons.mp hnd).1
      rw [ih (List.nodup_cons.mp hnd).2
        (fun k' hk' hne => hout k' (List.mem_cons_of_mem k0 hk') hne)]
      rw [if_neg hknotin, if_pos (List.mem_cons_self k0 keys)]
      simp
    · rw [hout k0 (List.mem_cons_self k0 keys) hk0]
      rw [ih (List.nodup_cons.mp hnd).2
        (fun k' hk' hne => hout k' (List.mem_cons_of_mem k0 hk') hne)]
      have hmem : (k ∈ k0 :: keys) ↔ (k ∈ keys) := by
        rw [List.mem_cons]
        constructor
        · rintro (h | h)
          · exact absurd h.symm hk0
          · exact h
        · exact Or.inr
      by_cases hk : k ∈ keys
      · rw [if_pos hk, if_pos (hmem.mpr hk)]
        simp
      · rw [if_neg hk, if_neg (fun h => hk (hmem.mp h))]
        simp

end DbGetBets

namespace DbGetBets

open TM

/-- Every bet in a per-key top-20 part carries that group key and bet
type. -/
theorem mem_top_part (all_bets : List NewBet) (k' : String × Nat)
    (ty' : String) (b : NewBet)
    (hb : b ∈ (((all_bets.filter (fun x => groupKey x == k')).filter
        (fun x => x.bet_type == ty')).insertionSort roiDesc).take 20) :
    groupKey b = k' ∧ b.bet_type = ty' := by
  have hb' := List.take_subset _ _ hb
  rw [List.mem_insertionSort] at hb'
  have h1 := List.mem_filter.mp hb'
  have h2 := List.mem_filter.mp h1.1
  exact ⟨by simpa using h2.2, by simpa using h1.2⟩

/-- The bets `save_top_bets_by_league` inserts for one `(league, day)`
group and one bet type are exactly the top 20 of that group and type by
descending ROI. -/
theorem filter_top_bets (all_bets : List NewBet) (k : String × Nat)
    (ty : String) (hty : ty = "To Win" ∨ ty = "Total") :
    (top_bets_for all_bets).filter
        (fun b => groupKey b == k && b.bet_type == ty) =
      ((all_bets.filter (fun b => groupKey b == k && b.bet_type == ty)).insertionSort
        roiDesc).take 20 := by
  have hnd := keysFold_nodup all_bets [] List.nodup_nil
  have hout : ∀ k' ∈ keysInOrder all_bets, k' ≠ k →
      ((((all_bets.filter (fun x => groupKey x == k')).filter
          (fun x => x.bet_type == "To Win")).insertionSort roiDesc).take 20 ++
        (((all_bets.filter (fun x => groupKey x == k')).filter
          (fun x => x.bet_type == "Total")).insertionSort roiDesc).take 20).filter
        (fun b => groupKey b == k && b.bet_type == ty) = [] := by
    intro k' _ hne
    rw [List.filter_append]
    have hnil : ∀ ty' : String,
        ((((all_bets.filter (fun x => groupKey x == k')).filter
            (fun x => x.bet_type == ty')).insertionSort roiDesc).take 20).filter
          (fun b => groupKey b == k && b.bet_type == ty) = [] := by
      intro ty'
      refine List.filter_eq_nil_iff.mpr (fun b hb hPb => ?_)
      have hkb := (mem_top_part all_bets k' ty' b hb).1
      have : groupKey b = k := by
        have := (Bool.and_eq_true _ _).mp hPb
        simpa using this.1
      exact hne (hkb ▸ this)
    rw [hnil "To Win", hnil "Total", List.append_nil]
  have hmain := filter_flatMap_single
    (fun b => groupKey b == k && b.bet_type == ty) k _
    (keysInOrder all_bets) hnd hout
  show ((keysInOrder all_bets).flatMap _).filter _ = _
  rw [hmain]
  by_cases hk : k ∈ keysInOrder all_bets
  · rw [if_pos hk, List.filter_append]
    have hself : ∀ ty' : String, ty' = ty →
        ((((all_bets.filter (fun x => groupKey x == k)).filter
            (fun x => x.bet_type == ty')).insertionSort roiDesc).take 20).filter
          (fun b => groupKey b == k && b.bet_type == ty) =
        (((all_bets.filter (fun x => groupKey x == k)).filter
            (fun x => x.bet_type == ty')).insertionSort roiDesc).take 20 := by
      intro ty' hty'
      refine List.filter_eq_self.mpr (fun b hb => ?_)
      obtain ⟨h1, h2⟩ := mem_top_part all_bets k ty' b hb
      simp [h1, hty' ▸ h2]
    have hdrop : ∀ ty' : String, ty' ≠ ty →
        ((((all_bets.filter (fun x => groupKey x == k)).filter
            (fun x => x.bet_type == ty')).insertionSort roiDesc).take 20).filter
          (fun b => groupKey b == k && b.bet_type == ty) = [] := by
      intro ty' hty'
      refine List.filter_eq_nil_iff.mpr (fun b hb hPb => ?_)
      obtain ⟨h1, h2⟩ := mem_top_part all_bets k ty' b hb
      have : b.bet_type = ty := by
        have := (Bool.and_eq_true _ _).mp hPb
        simpa using this.2
      exact hty' (h2 ▸ this)
    have hcombine : (all_bets.filter (fun x => groupKey x == k)).filter
        (fun x => x.bet_type == ty) =
        all_bets.filter (fun b => groupKey b == k && b.bet_type == ty) := by
      rw [List.filter_filter]
      exact List.filter_congr (fun b _ => Bool.and_comm _ _)
    rcases hty with h | h
    · subst h
      rw [hself "To Win" rfl, hdrop "Total" (by decide), List.append_nil, hcombine]
    · subst h
      rw [hself "Total" rfl, hdrop "To Win" (by decide), List.nil_append, hcombine]
  · rw [if_neg hk]
    have hempty : all_bets.filter (fun b => groupKey b == k && b.bet_type == ty) = [] := by
      refine List.filter_eq_nil_iff.mpr (fun b hb hPb => ?_)
      have hkb : groupKey b = k := by
        have := (Bool.and_eq_true _ _).mp hPb
        simpa using this.1
      exact hk (hkb ▸ groupKey_mem_keysFold all_bets [] b hb)
    rw [hempty]
    rfl

end DbGetBets

namespace DbGetBets

open TM

/-- C9 (amended, for `db_get_bets.py`): `save_top_bets_by_league` inserts
exactly the list `top_bets_for all_bets`, and for each `(league, day)`
group and each bet type ("To Win" or "Total") the inserted bets are
exactly the top 20 of that group by descending estimated ROI: at most 20
are persisted, and every unpersisted candidate of the group has ROI at
most that of every persisted one.  (The ELO processor's function of the
same name in `db_get_bet_results.py` enforces no such cap — see the
counterexample.) -/
theorem C9_per_group_cap (t : List BetRow) (all_bets : List NewBet)
    (k : String × Nat) (ty : String)
    (hty : ty = "To Win" ∨ ty = "Total") :
    save_top_bets_by_league t all_bets =
      ((top_bets_for all_bets).foldl insertOrReplaceBet t,
        (top_bets_for all_bets).length) ∧
    (top_bets_for all_bets).filter
        (fun b => groupKey b == k && b.bet_type == ty) =
      ((all_bets.filter (fun b => groupKey b == k && b.bet_type == ty)).insertionSort
        roiDesc).take 20 ∧
    ((top_bets_for all_bets).filter
        (fun b => groupKey b == k && b.bet_type == ty)).length ≤ 20 ∧
    (∀ b ∈ (top_bets_for all_bets).filter
        (fun b => groupKey b == k && b.bet_type == ty),
      ∀ c ∈ all_bets.filter (fun b => groupKey b == k && b.bet_type == ty),
        c ∉ (top_bets_for all_bets).filter
          (fun b => groupKey b == k && b.bet_type == ty) →
        c.estimated_roi ≤ b.estimated_roi) := by
  have hfil := filter_top_bets all_bets k ty hty
  refine ⟨rfl, hfil, ?_, ?_⟩
  · rw [hfil]
    exact List.length_take_le 20 _
  · intro b hb c hc hcnot
    rw [hfil] at hb hcnot
    have hcs : c ∈ (all_bets.filter
        (fun b => groupKey b == k && b.bet_type == ty)).insertionSort roiDesc :=
      (List.mem_insertionSort _).mpr hc
    rw [← List.take_append_drop 20 ((all_bets.filter
        (fun b => groupKey b == k && b.bet_type == ty)).insertionSort roiDesc)] at hcs
    rcases List.mem_append.mp hcs with h | h
    · exact absurd h hcnot
    · exact (List.sorted_insertionSort roiDesc _).rel_of_mem_take_of_mem_drop hb h

/-- Witness for C9 (amended): one qualifying moneyline candidate in one
league/day group. -/
theorem C9_per_group_cap_witness :
    save_top_bets_by_league []
        [⟨1, "L", "A", "B", 0, "To Win", "Home", none, 2, 2, 31⟩] =
      ((top_bets_for [⟨1, "L", "A", "B", 0, "To Win", "Home", none, 2, 2, 31⟩]).foldl
          insertOrReplaceBet [],
        (top_bets_for
          [⟨1, "L", "A", "B", 0, "To Win", "Home", none, 2, 2, 31⟩]).length) ∧
    (top_bets_for [⟨1, "L", "A", "B", 0, "To Win", "Home", none, 2, 2, 31⟩]).filter
        (fun b => groupKey b == ("L", 0) && b.bet_type == "To Win") =
      ((([⟨1, "L", "A", "B", 0, "To Win", "Home", none, 2, 2, 31⟩] : List NewBet).filter
          (fun b => groupKey b == ("L", 0) && b.bet_type == "To Win")).insertionSort
        roiDesc).take 20 ∧
    ((top_bets_for [⟨1, "L", "A", "B", 0, "To Win", "Home", none, 2, 2, 31⟩]).filter
        (fun b => groupKey b == ("L", 0) && b.bet_type == "To Win")).length ≤ 20 ∧
    (∀ b ∈ (top_bets_for
        [⟨1, "L", "A", "B", 0, "To Win", "Home", none, 2, 2, 31⟩]).filter
        (fun b => groupKey b == ("L", 0) && b.bet_type == "To Win"),
      ∀ c ∈ ([⟨1, "L", "A", "B", 0, "To Win", "Home", none, 2, 2, 31⟩] : List NewBet).filter
          (fun b => groupKey b == ("L", 0) && b.bet_type == "To Win"),
        c ∉ (top_bets_for
          [⟨1, "L", "A", "B", 0, "To Win", "Home", none, 2, 2, 31⟩]).filter
          (fun b => groupKey b == ("L", 0) && b.bet_type == "To Win") →
        c.estimated_roi ≤ b.estimated_roi) :=
  C9_per_group_cap [] [⟨1, "L", "A", "B", 0, "To Win", "Home", none, 2, 2, 31⟩]
    ("L", 0) "To Win" (Or.inl rfl)

end DbGetBets

namespace DbGetBetResults

/-- Counterexample for C9 as frozen: the ELO processor's
`save_top_bets_by_league` (`db_get_bet_results.py`) has no per-league/day
cap — given 21 accepted "To Win" candidates of one league/day it persists
all 21. -/
theorem C9_elo_no_cap_counterexample :
    ((DbGetBetResults.save_top_bets_by_league []
        ((List.range 21).map (fun i =>
          (⟨i, "L", "A", "B", 0, "To Win", "Home", none, 2, 2, 10,
            1500, 1500, 0, 0, 0, 5, "r", "", "", "", 0⟩ : EloBet)))).1.countP
      (fun r => r.bet.league_name == "L" && r.bet.event_time / 86400 == 0 &&
        r.bet.bet_type == "To Win")) = 21 ∧
    (DbGetBetResults.save_top_bets_by_league []
        ((List.range 21).map (fun i =>
          (⟨i, "L", "A", "B", 0, "To Win", "Home", none, 2, 2, 10,
            1500, 1500, 0, 0, 0, 5, "r", "", "", "", 0⟩ : EloBet)))).2 = 21 ∧
    ¬ (21 : Nat) ≤ 20 := by
  refine ⟨by decide, by decide, by decide⟩

end DbGetBetResults

namespace DbGetBetResults

open TM

/-- Witness for C2 at a concrete match with an unparseable score. -/
theorem C2_elo_chronological_fold_witness :
    parseScore (⟨1, 0, "A", "B", some "walkover", 3⟩ : ResultEvent).score = none ∧
    eloStep (fun _ => DEFAULT_ELO) ⟨1, 0, "A", "B", some "walkover", 3⟩ =
      (fun _ => DEFAULT_ELO) :=
  ⟨by decide, (C2_elo_chronological_fold []).2 (fun _ => DEFAULT_ELO)
    ⟨1, 0, "A", "B", some "walkover", 3⟩ (by decide)⟩

end DbGetBetResults
